import Mathlib

/-!
Shallow embedding of `src/medium/visuals.py` (module `visuals`), a set of
chart-building functions over in-memory tables (pandas DataFrames) producing
plotly figure descriptions.

Modelling conventions:
* A DataFrame is a header (list of column names) together with a list of rows.
  Cell values are rationals (numeric data) or strings.
* Python exceptions (KeyError on a missing column, TypeError on non-numeric
  data fed to numeric routines, UnboundLocalError, IndexError) are modelled by
  `Except String`: `.error` is an uncaught exception escaping the function.
* Python argument passing of a DataFrame is by object reference, and several
  functions mutate the caller's object (`sort_values(..., inplace=True)`,
  column assignment).  Every embedded function therefore returns, next to its
  result, the final state of the caller's DataFrame object.
* Numeric library routines (`np.polyfit`, `scipy.stats.linregress`,
  `sm.OLS(...).fit()`, `np.sqrt`) are abstracted as fields of a `StatsLib`
  parameter: their internal floating-point algorithms are not part of this
  repository.  `np.poly1d(z)(t)` (Horner evaluation of a coefficient list,
  highest degree first) is concrete, as its semantics is used structurally.
* Purely stylistic trace/layout constants (marker colours, sizes, fonts,
  opacities, dash patterns) are dropped from the figure model; every field a
  claim talks about (trace kind, x/y arrays, names, modes, text labels, axis
  titles and types, layout titles, annotation texts, update menus) is kept.
-/

set_option allowUnsafeReducibility true
attribute [local semireducible] Rat.add Rat.sub Rat.mul Rat.div Rat.neg Rat.inv

/-- Cell value of a table: numeric (modelling ints/floats/dates) or string. -/
inductive Val where
  | num (q : ℚ)
  | str (s : String)
deriving DecidableEq, Repr

deriving instance DecidableEq for Except

/-- Lexicographic comparison of character lists by code point, modelling
Python string ordering. -/
def charListLe : List Char → List Char → Bool
  | [], _ => true
  | _ :: _, [] => false
  | a :: as, b :: bs =>
    if a.toNat < b.toNat then true
    else if b.toNat < a.toNat then false
    else charListLe as bs

/-- Lexicographic string comparison. -/
def strLe (a b : String) : Bool := charListLe a.data b.data

/-- Total comparison on cell values, used by `sort_values` and `groupby`
(numeric before string; within a kind the natural order).  Real pandas data
compared by these operations is homogeneous, where this agrees with pandas. -/
def Val.le : Val → Val → Bool
  | .num a, .num b => a ≤ b
  | .num _, .str _ => true
  | .str _, .num _ => false
  | .str a, .str b => strLe a b

/-- Propositional form of `Val.le`. -/
def ValLE (a b : Val) : Prop := Val.le a b = true

instance : DecidableRel ValLE := fun a b => Bool.decEq (Val.le a b) true

/-- Numeric content of a cell, defaulting to 0 for strings. -/
def Val.toQ : Val → ℚ
  | .num q => q
  | .str _ => 0

/-- DataFrame: column names plus rows of cells. -/
structure DF where
  header : List String
  rows : List (List Val)
deriving DecidableEq, Repr

/-- Well-formedness: every row has exactly one cell per column. -/
def DF.WF (df : DF) : Prop := ∀ r ∈ df.rows, r.length = df.header.length

/-- Default cell used by out-of-range row reads (never hit on `WF` frames). -/
def defVal : Val := .str ""

/-- Position of a column in the header, `KeyError` when absent. -/
def DF.colIdx (df : DF) (c : String) : Except String Nat :=
  match df.header.indexOf? c with
  | some i => .ok i
  | none => .error ("KeyError: " ++ c)

/-- Column read `df[c]`: the cells of column `c`, row by row. -/
def DF.getCol (df : DF) (c : String) : Except String (List Val) := do
  let i ← df.colIdx c
  pure (df.rows.map (fun r => r.getD i defVal))

/-- Column write `df[c] = vs` / `df.loc[:, c] = vs`: overwrite when the
column exists, otherwise append it on the right. -/
def DF.setCol (df : DF) (c : String) (vs : List Val) : DF :=
  match df.header.indexOf? c with
  | some i => ⟨df.header, List.zipWith (fun r v => r.set i v) df.rows vs⟩
  | none => ⟨df.header ++ [c], List.zipWith (fun r v => r ++ [v]) df.rows vs⟩

/-- Conversion of a column to rationals; `TypeError` on a string cell,
modelling a numeric routine rejecting non-numeric data. -/
def toNums : List Val → Except String (List ℚ)
  | [] => .ok []
  | .num q :: vs => do pure (q :: (← toNums vs))
  | .str _ :: _ => .error "TypeError: non-numeric data"

/-- Running prefix sums, modelling `Series.cumsum()`. -/
def cumsum (qs : List ℚ) : List ℚ :=
  (qs.scanl (· + ·) 0).drop 1

/-- Rows sorted by the cell in position `i` (stable). -/
def sortRowsBy (i : Nat) (rows : List (List Val)) : List (List Val) :=
  rows.insertionSort (fun r s => ValLE (r.getD i defVal) (s.getD i defVal))

/-- In-place sort `df.sort_values(c, inplace=True)`: `KeyError` when `c` is
missing, otherwise the same rows reordered by the `c` cells. -/
def DF.sortValues (df : DF) (c : String) : Except String DF := do
  let i ← df.colIdx c
  pure ⟨df.header, sortRowsBy i df.rows⟩

/-- Rows whose cell in column `c` equals `v` (order kept), modelling the
boolean-mask filter `df[df[c] == v]`. -/
def DF.filterEq (df : DF) (c : String) (v : Val) : Except String DF := do
  let i ← df.colIdx c
  pure ⟨df.header, df.rows.filter (fun r => r.getD i defVal = v)⟩

/-- Distinct values of a list in ascending `ValLE` order: the group keys of
`df.groupby(c)` (pandas sorts group keys). -/
def groupKeys (vs : List Val) : List Val :=
  vs.dedup.insertionSort ValLE

/-- Grouping `df.groupby(c)`: the pairs (key, sub-frame of the rows holding
that key, in original order), one per distinct key, keys ascending. -/
def DF.groupby (df : DF) (c : String) : Except String (List (Val × DF)) := do
  let i ← df.colIdx c
  let col := df.rows.map (fun r => r.getD i defVal)
  pure ((groupKeys col).map
    (fun k => (k, ⟨df.header, df.rows.filter (fun r => r.getD i defVal = k)⟩)))

/-- Monadic map in `Except`, modelling a Python `for` loop that appends one
result per element and lets exceptions escape. -/
def mapME (f : α → Except String β) : List α → Except String (List β)
  | [] => .ok []
  | a :: l => do pure ((← f a) :: (← mapME f l))

/-- Replacement of underscores by spaces: `s.replace('_', ' ')`. -/
def pyRepl (s : String) : String :=
  ⟨s.data.map (fun ch => if ch = '_' then ' ' else ch)⟩

/-- Helper for `pyTitle`: the Boolean records whether the previous character
was alphabetic. -/
def pyTitleAux : Bool → List Char → List Char
  | _, [] => []
  | prevAlpha, ch :: cs =>
    let a := ch.isAlpha
    (if a then (if prevAlpha then ch.toLower else ch.toUpper) else ch)
      :: pyTitleAux a cs

/-- Python `str.title()` over ASCII: the first letter of each alphabetic run
is uppercased, the rest lowercased, other characters unchanged. -/
def pyTitle (s : String) : String := ⟨pyTitleAux false s.data⟩

/-- Display form of a column name: `name.replace('_', ' ').title()`. -/
def colTitle (s : String) : String := pyTitle (pyRepl s)

/-- Python truthiness of an optional string (`if category:`): `none` and the
empty string are falsy. -/
def strTruthy : Option String → Bool
  | none => false
  | some s => s ≠ ""

/-- Rounding to the nearest integer, ties to even (the rounding of Python's
fixed-point formatting). -/
def roundHalfEven (q : ℚ) : ℤ :=
  let f := ⌊q⌋
  let frac := q - f
  if frac < 1 / 2 then f
  else if 1 / 2 < frac then f + 1
  else if f % 2 = 0 then f else f + 1

/-- Two-digit zero-padded rendering of `m % 100`. -/
def twoDigits (m : Nat) : String :=
  (if m % 100 < 10 then "0" else "") ++ toString (m % 100)

/-- Python `format(q, '.2f')`: the value rendered with exactly two decimal
places. -/
def format2f (q : ℚ) : String :=
  let n := roundHalfEven (q * 100)
  (if n < 0 then "-" else "") ++ toString (n.natAbs / 100) ++ "." ++ twoDigits n.natAbs

/-- Base-10 digits of `n`, least significant first, by fuel-bounded
division (any fuel at least `n` is enough). -/
def natDigitsRev : Nat → Nat → List Nat
  | 0, _ => []
  | fuel + 1, n => if n = 0 then [] else n % 10 :: natDigitsRev fuel (n / 10)

/-- Decimal digit characters of `n`, most significant first. -/
def natDecimalChars (n : Nat) : List Char :=
  ((natDigitsRev n n).map Nat.digitChar).reverse

/-- Decimal numeral of a natural number, modelling Python's `str(i)` /
f-string interpolation of an `int`. -/
def natDecimal (n : Nat) : String :=
  if n = 0 then "0" else ⟨natDecimalChars n⟩

/-- Argument `y` of `make_cum_plot`: a single column name or a list of two
column names (the double-y-axis form). -/
inductive YSel where
  | single (s : String)
  | pair (a b : String)
deriving DecidableEq, Repr

/-- Python `len(y)`: length of the string, or 2 for the two-element list. -/
def YSel.pyLen : YSel → Nat
  | .single s => s.length
  | .pair _ _ => 2

/-- Python `y[0]`: the first character (as a string) of a string `y`, or the
first element of a list `y`. -/
def YSel.idx0 : YSel → String
  | .single s => ⟨s.data.take 1⟩
  | .pair a _ => a

/-- Python `y[1]`: the second character (as a string) of a string `y`, or the
second element of a list `y`. -/
def YSel.idx1 : YSel → String
  | .single s => ⟨(s.data.drop 1).take 1⟩
  | .pair _ b => b

/-- Column selection `df[y]` for the `y` argument.  Selecting with a list
(`df[[a, b]]`, a two-column sub-frame) is outside the modelled fragment; the
source only reaches that shape through `make_cum_plot`'s grouped branch,
which no claim exercises with a list argument. -/
def DF.getColSel (df : DF) : YSel → Except String (List Val)
  | .single s => df.getCol s
  | .pair _ _ => .error "unmodelled: DataFrame selection with a list of columns"

/-- Python `str(y)` contents used by titles in the single-column case. -/
def YSel.asStr : YSel → String
  | .single s => s
  | .pair a _ => a

/-- Trace of a figure: one rendered data series.  `kind` is "histogram" or
"scatter"; styling constants are dropped. -/
structure Trace where
  kind : String
  x : List Val
  y : List Val
  name : Option Val
  mode : Option String
  text : Option (List Val)
deriving DecidableEq, Repr

/-- Histogram trace `go.Histogram(dict(x=..., name=...))`. -/
def mkHist (x : List Val) (name : Option Val) : Trace :=
  ⟨"histogram", x, [], name, none, none⟩

/-- Scatter trace `go.Scatter(x=..., y=..., mode=..., name=..., text=...)`. -/
def mkScatter (x y : List Val) (mode : String) (name : Option Val)
    (text : Option (List Val)) : Trace :=
  ⟨"scatter", x, y, name, some mode, text⟩

/-- Text label placed on a plot (a plotly annotation dict); only the fields
the source computes from data are kept. -/
structure Ann where
  xpos : ℚ
  ypos : ℚ
  text : String
deriving DecidableEq, Repr

/-- Axis description of a layout. -/
structure Axis where
  title : Option String
  type : Option String
  rangeselector : Bool
  rangeslider : Bool
deriving DecidableEq, Repr

/-- Plain axis with only a title. -/
def mkAxis (t : String) : Axis := ⟨some t, none, false, false⟩

/-- Axis with a title and a type string. -/
def mkAxisT (t ty : String) : Axis := ⟨some t, some ty, false, false⟩

/-- Dropdown menu built by `make_update_menu`. -/
structure UpdateMenus where
  base_title : String
  article_ann : Option Ann
  response_ann : Option Ann
deriving DecidableEq, Repr

/-- Layout of a figure. -/
structure Layout where
  title : Option String
  xaxis : Option Axis
  yaxis : Option Axis
  yaxis2 : Option Axis
  annotations : Option (List Ann)
  updatemenus : Option UpdateMenus
deriving DecidableEq, Repr

/-- Figure: the traces plus the layout. -/
structure Figure where
  data : List Trace
  layout : Layout
deriving DecidableEq, Repr

/-- Result record of `scipy.stats.linregress`. -/
structure LinregressResult where
  slope : ℚ
  intercept : ℚ
  rvalue : ℚ
  pvalue : ℚ
deriving DecidableEq, Repr

/-- Result record of `sm.OLS(endog, exog).fit()` for a single regressor:
`params` is the one fitted coefficient, `fittedvalues` the fitted series,
`summaryText` stands for the opaque `summary()` report. -/
structure OLSResult where
  params : ℚ
  fittedvalues : List ℚ
  summaryText : String
deriving DecidableEq, Repr

/-- Numeric library routines used by the module, abstracted: the module calls
them and assembles their results, their internal algorithms are not this
repository's code.  `polyfit xs ys d` models `np.polyfit(xs, ys, d,
full=True)` returning the coefficient list (highest degree first) and the
residual list; `sqrt` models `np.sqrt`. -/
structure StatsLib where
  polyfit : List ℚ → List ℚ → Nat → List ℚ × List ℚ
  linregress : List ℚ → List ℚ → LinregressResult
  olsFit : List ℚ → List ℚ → OLSResult
  sqrt : ℚ → ℚ

/-- Horner evaluation of `np.poly1d(z)` at a point (coefficients highest
degree first). -/
def polyval (z : List ℚ) (t : ℚ) : ℚ :=
  z.foldl (fun acc c => acc * t + c) 0

/-- Largest element of a list of rationals; error on an empty list (where the
source's surrounding numeric calls fail on empty data). -/
def maxE (l : List ℚ) : Except String ℚ :=
  match l.max? with
  | some m => .ok m
  | none => .error "ValueError: empty data"

/-- Smallest element of a list of rationals; error on an empty list. -/
def minE (l : List ℚ) : Except String ℚ :=
  match l.min? with
  | some m => .ok m
  | none => .error "ValueError: empty data"

/-- Python `int()` truncation toward zero of a rational. -/
def pyInt (q : ℚ) : ℤ := q.num / q.den

/-- Python `range(a, b)` as rationals: the integers `a`, ..., `b - 1`. -/
def rangeInts (a b : ℤ) : List ℚ :=
  (List.range (b - a).toNat).map (fun k => ((a + k : ℤ) : ℚ))

/-- Fit-column name `f'fit degree = {i}'`. -/
def fitName (i : Nat) : String := "fit degree = " ++ natDecimal i

/-- Fit-statistics table returned by `make_poly_fits`
(`pd.DataFrame({'fit': ..., 'rmse': ..., 'params': ...})`). -/
structure FitStats where
  fit : List String
  rmse : List ℚ
  params : List (List ℚ)
deriving DecidableEq, Repr

/-- Summary value returned by `make_linear_regression`: the opaque
`lin_reg.summary()` report, or the parameter table built in the
fitted-intercept branch. -/
inductive Summary where
  | ols (text : String)
  | table (params : List String) (values : List ℚ)
deriving DecidableEq, Repr

/-- Embedding of `make_update_menu`: the dropdown switching between both /
articles / responses views. -/
def make_update_menu (base_title : String) (article_ann response_ann : Option Ann) :
    UpdateMenus :=
  ⟨base_title, article_ann, response_ann⟩

/-- Layout block of `make_hist` (lines 99-105 of the source): "Count" y-axis,
x-axis titled by the column, and a title that mentions the category only when
`category` is truthy (`title=... if category else ...`). -/
def histLayout (x : String) (category : Option String) : Layout :=
  ⟨some (if strTruthy category then
      colTitle x ++ " Distribution by " ++ colTitle (category.getD "")
    else colTitle x ++ " Distribution"),
    some (mkAxis (colTitle x)), some (mkAxis "Count"), none, none, none⟩

/-- Embedding of `make_hist(df, x, category=None)`. -/
def make_hist (df : DF) (x : String) (category : Option String) :
    Except String (Figure × DF) :=
  match category with
  | some c => do
      let gs ← df.groupby c
      let data ← mapME (fun g => do
        let gx ← g.2.getCol x
        pure (mkHist gx (some g.1))) gs
      pure (⟨data, histLayout x category⟩, df)
  | none => do
      let dx ← df.getCol x
      pure (⟨[mkHist dx none], histLayout x category⟩, df)

/-- Layout block of `make_cum_plot` (lines 169-186 of the source): the
double-axis form when `len(y) == 2`, otherwise a single y-axis with a title
that mentions the category exactly when `category is not None`. -/
def cumLayout (y : YSel) (category : Option String) : Layout :=
  if y.pyLen = 2 then
    ⟨some ("Cumulative " ++ pyTitle y.idx0 ++ " and " ++ pyTitle y.idx1),
      some (mkAxisT "Published Date" "date"),
      some (mkAxis (pyTitle y.idx0)), some (mkAxis (pyTitle y.idx1)),
      none, none⟩
  else
    ⟨some (if category.isSome then
        "Cumulative " ++ colTitle y.asStr ++ " by " ++ colTitle (category.getD "")
      else "Cumulative " ++ colTitle y.asStr),
      some (mkAxisT "Published Date" "date"),
      some (mkAxis (colTitle y.asStr)), none, none, none⟩

/-- Embedding of `make_cum_plot(df, y, category=None)`.  The second component
of the result is the caller's DataFrame object after the call: the
`category is None` branch sorts it in place by `published_date`, while the
grouped branch sorts only the per-group copies produced by `groupby`. -/
def make_cum_plot (df : DF) (y : YSel) (category : Option String) :
    Except String (Figure × DF) :=
  match category with
  | some c => do
      let gs ← df.groupby c
      let data ← mapME (fun g => do
        let gsorted ← g.2.sortValues "published_date"
        let gx ← gsorted.getCol "published_date"
        let gys ← toNums (← gsorted.getColSel y)
        let gt ← gsorted.getCol "title"
        pure (mkScatter gx ((cumsum gys).map Val.num) "lines+markers"
          (some g.1) (some gt))) gs
      pure (⟨data, cumLayout y category⟩, df)
  | none => do
      let df ← df.sortValues "published_date"
      if y.pyLen = 2 then do
        let dx ← df.getCol "published_date"
        let ys0 ← toNums (← df.getCol y.idx0)
        let dt ← df.getCol "title"
        let dx1 ← df.getCol "published_date"
        let ys1 ← toNums (← df.getCol y.idx1)
        let dt1 ← df.getCol "title"
        pure (⟨[mkScatter dx ((cumsum ys0).map Val.num) "lines+markers"
            (some (.str (pyTitle y.idx0))) (some dt),
          mkScatter dx1 ((cumsum ys1).map Val.num) "lines+markers"
            (some (.str (pyTitle y.idx1))) (some dt1)], cumLayout y none⟩, df)
      else do
        let dx ← df.getCol "published_date"
        let dys ← toNums (← df.getColSel y)
        let dt ← df.getCol "title"
        pure (⟨[mkScatter dx ((cumsum dys).map Val.num) "lines+markers"
          none (some dt)], cumLayout y none⟩, df)

/-- Layout block of `make_scatter_plot` (lines 246-253 of the source): the
log type and " (log scale)" title suffix on each axis exactly when the
corresponding flag is set. -/
def scatterLayout (x y : String) (xlog ylog : Bool) (anns : Option (List Ann))
    (title : String) : Layout :=
  ⟨some title,
    some ⟨some (colTitle x ++ (if xlog then " (log scale)" else "")),
      (if xlog then some "log" else none), false, false⟩,
    some ⟨some (colTitle y ++ (if ylog then " (log scale)" else "")),
      (if ylog then some "log" else none), false, false⟩,
    none, anns, none⟩

/-- Embedding of `make_scatter_plot(df, x, y, fits=None, xlog=False,
ylog=False, category=None, scale=None, sizeref=2, annotations=None)`.  The
second component of the result is the caller's DataFrame object after the
call: the branch with neither `category` nor `scale` sorts it in place by
`x`.  `sizeref` only styles markers and is unused by the figure model. -/
def make_scatter_plot (df : DF) (x y : String) (fits : Option (List String))
    (xlog ylog : Bool) (category : Option String) (scale : Option String)
    (sizeref : ℚ) (anns : Option (List Ann)) : Except String (Figure × DF) :=
  let _ := sizeref
  match category with
  | some c => do
      let gs ← df.groupby c
      let data ← mapME (fun g => do
        let gx ← g.2.getCol x
        let gy ← g.2.getCol y
        let gt ← g.2.getCol "title"
        pure (mkScatter gx gy "markers" (some g.1) (some gt))) gs
      pure (⟨data, scatterLayout x y xlog ylog anns
        (colTitle y ++ " vs " ++ colTitle x ++ " by " ++ colTitle c)⟩, df)
  | none =>
    match scale with
    | some sc => do
        let dx ← df.getCol x
        let dy ← df.getCol y
        let dt ← df.getCol "title"
        let _ ← df.getCol sc
        pure (⟨[mkScatter dx dy "markers" none (some dt)],
          scatterLayout x y xlog ylog anns
            (colTitle y ++ " vs " ++ colTitle x ++ " Scaled by " ++ pyTitle sc)⟩, df)
    | none => do
        let df ← df.sortValues x
        let dx ← df.getCol x
        let dy ← df.getCol y
        let dt ← df.getCol "title"
        let obs := mkScatter dx dy "markers" (some (.str "observations")) (some dt)
        match fits with
        | none => pure (⟨[obs],
            scatterLayout x y xlog ylog anns (colTitle y ++ " vs " ++ colTitle x)⟩, df)
        | some fl => do
            let fitTs ← mapME (fun f => do
              let fy ← df.getCol f
              pure (mkScatter dx fy "lines+markers" (some (.str f)) none)) fl
            pure (⟨obs :: fitTs,
              scatterLayout x y xlog ylog anns
                (colTitle y ++ " vs " ++ colTitle x ++ " with Fit")⟩, df)

/-- Body of the fit loop of `make_poly_fits`, one recursive step per degree
in the list: fit, record the fit column on the working copy, record the
root of the first residual.  Returns the grown copy and the accumulated
`fit_list`, `rmse` and `fit_params` in iteration order. -/
def polyFitLoop (lib : StatsLib) (x y : String) :
    List Nat → DF → Except String (DF × List String × List ℚ × List (List ℚ))
  | [], dfc => .ok (dfc, [], [], [])
  | i :: is, dfc => do
    let fit_name := fitName i
    let xs ← toNums (← dfc.getCol x)
    let ys ← toNums (← dfc.getCol y)
    let zres := lib.polyfit xs ys i
    let dfc1 := dfc.setCol fit_name ((xs.map (polyval zres.1)).map Val.num)
    let r ← match zres.2.head? with
      | some r0 => pure (lib.sqrt r0)
      | none => .error "IndexError: empty residual list"
    let rest ← polyFitLoop lib x y is dfc1
    pure (rest.1, fit_name :: rest.2.1, r :: rest.2.2.1, zres.1 :: rest.2.2.2)

/-- Embedding of `make_poly_fits(df, x, y, degree=6)`.  The first line of the
source is `df = df.copy()`: the loop and the nested `make_scatter_plot` work
on the copy, and the caller's DataFrame object (third component of the
result) is returned unchanged. -/
def make_poly_fits (lib : StatsLib) (df : DF) (x y : String) (degree : Nat) :
    Except String (FitStats × Figure × DF) := do
  let st ← polyFitLoop lib x y (List.range' 1 degree) df
  let fit_stats : FitStats := ⟨st.2.1, st.2.2.1, st.2.2.2⟩
  let figdf ← make_scatter_plot st.1 x y (some st.2.1) false false none none 2 none
  pure (fit_stats, figdf.1, df)

/-- Embedding of `make_linear_regression(df, x, y, intercept_0)`.  The third
component of the result is the caller's DataFrame object after the call: the
function writes a `fit_values` column into it, and the nested
`make_scatter_plot` call then sorts it in place by `x`. -/
def make_linear_regression (lib : StatsLib) (df : DF) (x y : String)
    (intercept_0 : Bool) : Except String (Figure × Summary × DF) := do
  let st ←
    if intercept_0 then do
      let ys ← toNums (← df.getCol y)
      let xs ← toNums (← df.getCol x)
      let lin_reg := lib.olsFit ys xs
      let df1 := df.setCol "fit_values" (lin_reg.fittedvalues.map Val.num)
      let slope := lin_reg.params
      let equation := "$" ++ y ++ " = " ++ format2f slope ++ " * " ++ pyRepl x ++ "$"
      pure (df1, Summary.ols lin_reg.summaryText, equation)
    else do
      let xs ← toNums (← df.getCol x)
      let ys ← toNums (← df.getCol y)
      let lin_reg := lib.linregress xs ys
      let summary := Summary.table ["pvalue", "rvalue", "slope", "intercept"]
        [lin_reg.pvalue, lin_reg.rvalue, lin_reg.slope, lin_reg.intercept]
      let df1 := df.setCol "fit_values"
        ((xs.map (fun t => t * lin_reg.slope + lin_reg.intercept)).map Val.num)
      let equation := "$" ++ y ++ " = " ++ format2f lin_reg.slope ++ " * "
        ++ pyRepl x ++ " + " ++ format2f lin_reg.intercept ++ "$"
      pure (df1, summary, equation)
  let xmax ← maxE (← toNums (← st.1.getCol x))
  let ymax ← maxE (← toNums (← st.1.getCol y))
  let ann : Ann := ⟨3 / 4 * xmax, 9 / 10 * ymax, st.2.2⟩
  let figdf ← make_scatter_plot st.1 x y (some ["fit_values"]) false false
    none none 2 (some [ann])
  pure (figdf.1, st.2.1, figdf.2)

/-- Body of the regression loop of `make_iplot` for one of the two frames
(`articles` / `responses`): the linear-fit trace over the integer range of
the x data, and the equation label keyed by `nm`. -/
def iplotFit (lib : StatsLib) (dfp : DF) (x y nm : String) (eq_pos : ℚ × ℚ) :
    Except String (Trace × Ann) := do
  let xs ← toNums (← dfp.getCol x)
  let ys ← toNums (← dfp.getCol y)
  let reg := lib.linregress xs ys
  let mn ← minE xs
  let mx ← maxE xs
  let xi := rangeInts (pyInt mn) (pyInt mx)
  let line := xi.map (fun t => t * reg.slope + reg.intercept)
  let trace := mkScatter (xi.map Val.num) (line.map Val.num) "lines"
    (some (.str (nm ++ " linear fit"))) none
  let xim ← maxE xi
  let ym ← maxE ys
  let ann : Ann := ⟨xim * eq_pos.1, ym * eq_pos.2,
    "$R^2 = " ++ format2f reg.rvalue ++ "; Y = " ++ format2f reg.slope
      ++ "X + " ++ format2f reg.intercept ++ "$"⟩
  pure (trace, ann)

/-- Addition of the 1m/6m/YTD/1y/all rangeselector buttons and the
rangeslider to an axis (`layout["xaxis"]["rangeselector"] = ...`). -/
def addRangeControls (ax : Axis) : Axis := ⟨ax.title, ax.type, true, true⟩

/-- Read of a Python local variable that may not have been assigned on the
taken path: `none` is the `UnboundLocalError` escaping the function. -/
def readLocal : Option α → Except String α
  | some a => .ok a
  | none => .error "UnboundLocalError: local variable annotations referenced before assignment"

/-- Branch of `make_iplot` taken when there are response rows (lines
351-419 of the source): the articles and responses scatter traces, the two
regression fits and equation labels when `time` is false, and the layout
with update menus.  The Python local `annotations` is assigned only inside
`if not time:`; reading it unassigned (the `none` handed to `readLocal`) is
the `UnboundLocalError` raised at the `go.Layout(annotations=...)` call. -/
def iplotRespBranch (lib : StatsLib) (responses articles : DF)
    (x y base_title : String) (time : Bool) (eq_pos : ℚ × ℚ) :
    Except String (List Trace × Layout) := do
  let ax ← articles.getCol x
  let ay ← articles.getCol y
  let atitle ← articles.getCol "title"
  let rx ← responses.getCol x
  let ry ← responses.getCol y
  let base_data := [
    mkScatter ax ay "markers" (some (.str "articles")) (some atitle),
    mkScatter rx ry "markers" (some (.str "responses")) none]
  let st ←
    if time then pure (base_data, (none : Option (Ann × Ann)))
    else do
      let afit ← iplotFit lib articles x y "articles" eq_pos
      let rfit ← iplotFit lib responses x y "responses" eq_pos
      pure (base_data ++ [afit.1, rfit.1], some (afit.2, rfit.2))
  let anns ← readLocal st.2
  let layout : Layout :=
    ⟨some base_title, some (mkAxis (colTitle x)), some (mkAxis (colTitle y)),
      none, some [anns.1, anns.2],
      some (make_update_menu base_title (some anns.1) (some anns.2))⟩
  pure (st.1, layout)

/-- Branch of `make_iplot` taken when there are only articles (lines
421-473 of the source): the observations trace, one regression fit trace and
equation label, and the layout without update menus. -/
def iplotArtsBranch (lib : StatsLib) (data : DF) (x y base_title : String)
    (eq_pos : ℚ × ℚ) : Except String (List Trace × Layout) := do
  let dx ← data.getCol x
  let dy ← data.getCol y
  let dtitle ← data.getCol "title"
  let obs := mkScatter dx dy "markers" (some (.str "observations")) (some dtitle)
  let xs ← toNums dx
  let ys ← toNums dy
  let reg := lib.linregress xs ys
  let mn ← minE xs
  let mx ← maxE xs
  let xi := rangeInts (pyInt mn) (pyInt mx)
  let line := xi.map (fun t => t * reg.slope + reg.intercept)
  let trace := mkScatter (xi.map Val.num) (line.map Val.num) "lines"
    (some (.str "linear fit")) none
  let xim ← maxE xi
  let ym ← maxE ys
  let ann : Ann := ⟨xim * eq_pos.1, ym * eq_pos.2,
    "$R^2 = " ++ format2f reg.rvalue ++ "; Y = " ++ format2f reg.slope
      ++ "X + " ++ format2f reg.intercept ++ "$"⟩
  let layout : Layout :=
    ⟨some base_title, some (mkAxis (colTitle x)), some (mkAxis (colTitle y)),
      none, some [ann], none⟩
  pure ([obs, trace], layout)

/-- Embedding of `make_iplot(data, x, y, base_title, time=False,
eq_pos=(0.75, 0.25))`: filter responses and articles, build traces and layout
in the branch selected by `not responses.empty`, and add the range controls
to the x-axis when `time` is set.  The caller's frame (second component) is
never mutated: both filters produce copies. -/
def make_iplot (lib : StatsLib) (data : DF) (x y base_title : String)
    (time : Bool) (eq_pos : ℚ × ℚ) : Except String (Figure × DF) := do
  let responses ← data.filterEq "response" (.str "response")
  let articles ← data.filterEq "response" (.str "article")
  let pl ←
    if !responses.rows.isEmpty then
      iplotRespBranch lib responses articles x y base_title time eq_pos
    else
      iplotArtsBranch lib data x y base_title eq_pos
  let layout :=
    if time then
      Layout.mk pl.2.title (pl.2.xaxis.map addRangeControls) pl.2.yaxis
        pl.2.yaxis2 pl.2.annotations pl.2.updatemenus
    else pl.2
  pure (⟨pl.1, layout⟩, data)

/-! ## Sample data used by witnesses and counterexamples -/

/-- Sample frame for witnesses: two numeric columns and a title column. -/
def dfS : DF := ⟨["x_val", "y_val", "title"],
  [[.num 1, .num 2, .str "p"], [.num 3, .num 4, .str "q"]]⟩

/-- Sample frame for witnesses: a category column and a numeric column. -/
def dfH : DF := ⟨["cat", "v"],
  [[.str "a", .num 1], [.str "b", .num 2], [.str "a", .num 3]]⟩

/-- Frame with a column whose name is the empty string, for the
empty-category counterexample. -/
def dfE : DF := ⟨["", "x"], [[.str "g", .num 1]]⟩

/-! ## Order properties of the cell comparison -/

theorem charListLe_total : ∀ as bs, charListLe as bs = true ∨ charListLe bs as = true := by
  intro as
  induction as with
  | nil => intro bs; left; rfl
  | cons a as ih =>
    intro bs
    cases bs with
    | nil => right; rfl
    | cons b bs =>
      simp only [charListLe]
      rcases Nat.lt_trichotomy a.toNat b.toNat with hlt | heq | hgt
      · left; rw [if_pos hlt]
      · have h1 : ¬ a.toNat < b.toNat := by rw [heq]; exact Nat.lt_irrefl _
        have h2 : ¬ b.toNat < a.toNat := by rw [heq]; exact Nat.lt_irrefl _
        rw [if_neg h1, if_neg h2, if_neg h2, if_neg h1]
        exact ih bs
      · right; rw [if_pos hgt]

theorem charListLe_trans : ∀ as bs cs, charListLe as bs = true →
    charListLe bs cs = true → charListLe as cs = true := by
  intro as
  induction as with
  | nil => intro bs cs _ _; rfl
  | cons a as ih =>
    intro bs cs hab hbc
    cases bs with
    | nil => simp [charListLe] at hab
    | cons b bs =>
      cases cs with
      | nil => simp [charListLe] at hbc
      | cons c cs =>
        simp only [charListLe] at hab hbc ⊢
        by_cases h1 : a.toNat < b.toNat
        · by_cases h2 : b.toNat < c.toNat
          · rw [if_pos (Nat.lt_trans h1 h2)]
          · by_cases h3 : c.toNat < b.toNat
            · rw [if_neg h2, if_pos h3] at hbc; exact absurd hbc (by simp)
            · have hbceq : b.toNat = c.toNat :=
                Nat.le_antisymm (Nat.le_of_not_lt h3) (Nat.le_of_not_lt h2)
              rw [if_pos (hbceq ▸ h1)]
        · by_cases h3 : b.toNat < a.toNat
          · rw [if_neg h1, if_pos h3] at hab; exact absurd hab (by simp)
          · have habeq : a.toNat = b.toNat :=
              Nat.le_antisymm (Nat.le_of_not_lt h3) (Nat.le_of_not_lt h1)
            rw [if_neg h1, if_neg h3] at hab
            by_cases h2 : b.toNat < c.toNat
            · rw [if_pos (habeq ▸ h2)]
            · by_cases h4 : c.toNat < b.toNat
              · rw [if_neg h2, if_pos h4] at hbc; exact absurd hbc (by simp)
              · rw [if_neg h2, if_neg h4] at hbc
                have hbceq : b.toNat = c.toNat :=
                  Nat.le_antisymm (Nat.le_of_not_lt h4) (Nat.le_of_not_lt h2)
                have hac1 : ¬ a.toNat < c.toNat := by
                  rw [habeq, hbceq]; exact Nat.lt_irrefl _
                have hac2 : ¬ c.toNat < a.toNat := by
                  rw [habeq, hbceq]; exact Nat.lt_irrefl _
                rw [if_neg hac1, if_neg hac2]
                exact ih bs cs hab hbc

instance : IsTotal Val ValLE where
  total a b := by
    cases a <;> cases b <;> simp [ValLE, Val.le, strLe]
    · exact le_total _ _
    · exact charListLe_total _ _

instance : IsTrans Val ValLE where
  trans a b c := by
    cases a <;> cases b <;> cases c <;> simp [ValLE, Val.le, strLe]
    · exact le_trans
    · exact charListLe_trans _ _ _

/-- Frame whose rows are out of published-date order, so the in-place sort
of `make_cum_plot` visibly reorders the caller's table. -/
def dfCum : DF := ⟨["published_date", "title", "views"],
  [[.num 2, .str "b", .num 10], [.num 1, .str "a", .num 20]]⟩

/-- Frame with single-character columns "a" and "b" next to a two-character
column "ab", exercising the `len(y) == 2` confusion of `make_cum_plot`. -/
def dfAB : DF := ⟨["published_date", "title", "a", "b", "ab"],
  [[.num 1, .str "t1", .num 1, .num 10, .num 100],
   [.num 2, .str "t2", .num 2, .num 20, .num 200]]⟩

/-- Trivial statistics library used to instantiate the `StatsLib` parameter
in witnesses: every fit is the zero polynomial with a zero residual, and the
OLS fitted values are the exog data times the zero coefficient. -/
def lib0 : StatsLib :=
  ⟨fun _ _ n => (List.replicate (n + 1) 0, [0]),
   fun _ _ => ⟨0, 0, 0, 0⟩,
   fun _ xs => ⟨0, xs.map (fun t => t * 0), "ols summary"⟩,
   fun _ => 0⟩

/-- Frame with one response row and one article row, for the `make_iplot`
time-axis claim. -/
def dfR : DF := ⟨["response", "x", "y", "title"],
  [[.str "response", .num 1, .num 2, .str "t"],
   [.str "article", .num 3, .num 4, .str "u"]]⟩

/-! ## Generic lemmas about the `Except` plumbing -/

theorem bindE_ok {α β : Type} {x : Except String α} {f : α → Except String β}
    {b : β} : x >>= f = .ok b ↔ ∃ a, x = .ok a ∧ f a = .ok b := by
  cases x <;> simp [Bind.bind, Except.bind]

theorem pureE_ok {α : Type} {a b : α} :
    (pure a : Except String α) = .ok b ↔ a = b := by
  simp [pure, Except.pure]

theorem mapME_ok_of {α β : Type} {f : α → Except String β} {g : α → β}
    {l : List α} (h : ∀ a ∈ l, f a = .ok (g a)) : mapME f l = .ok (l.map g) := by
  induction l with
  | nil => rfl
  | cons a l ih =>
    simp only [mapME, bindE_ok, List.map_cons]
    exact ⟨g a, h a (by simp), l.map g,
      ih (fun a ha => h a (by simp [ha])), pureE_ok.mpr rfl⟩

theorem mapME_ok_unique {α β : Type} {f : α → Except String β} {g : α → β}
    {l : List α} {ys : List β} (h : mapME f l = .ok ys)
    (hg : ∀ a ∈ l, f a = .ok (g a)) : ys = l.map g := by
  have h2 := mapME_ok_of hg
  rw [h] at h2
  exact Except.ok.inj h2

/-! ## Claim C5: the log-axis switches of `make_scatter_plot` -/

/-- C5: for every input on which `make_scatter_plot` returns a figure, the
boolean switches select the layout axis fields exactly: the x-axis type is
"log" if and only if `xlog` is true, and the x-axis title then carries the
" (log scale)" suffix; symmetrically for `ylog` and the y-axis; with the flag
false the axis type is unset (`none`) and no suffix is added. -/
theorem C5_log_axes (df : DF) (x y : String) (fits : Option (List String))
    (xlog ylog : Bool) (category scale : Option String) (sizeref : ℚ)
    (anns : Option (List Ann)) (fig : Figure) (df' : DF)
    (h : make_scatter_plot df x y fits xlog ylog category scale sizeref anns
      = .ok (fig, df')) :
    fig.layout.xaxis = some ⟨some (colTitle x ++ (if xlog then " (log scale)" else "")),
        (if xlog then some "log" else none), false, false⟩ ∧
    fig.layout.yaxis = some ⟨some (colTitle y ++ (if ylog then " (log scale)" else "")),
        (if ylog then some "log" else none), false, false⟩ := by
  unfold make_scatter_plot at h
  split at h
  · simp only [bindE_ok, pureE_ok, Prod.mk.injEq] at h
    obtain ⟨gs, h1, data, h2, hfig, hdf⟩ := h
    subst hfig
    exact ⟨rfl, rfl⟩
  · split at h
    · simp only [bindE_ok, pureE_ok, Prod.mk.injEq] at h
      obtain ⟨dx, h1, dy, h2, dt, h3, dsc, h4, hfig, hdf⟩ := h
      subst hfig
      exact ⟨rfl, rfl⟩
    · simp only [bindE_ok] at h
      obtain ⟨dfs, h0, dx, h1, dy, h2, dt, h3, h4⟩ := h
      split at h4
      · simp only [pureE_ok, Prod.mk.injEq] at h4
        obtain ⟨hfig, hdf⟩ := h4
        subst hfig
        exact ⟨rfl, rfl⟩
      · simp only [bindE_ok, pureE_ok, Prod.mk.injEq] at h4
        obtain ⟨fitTs, h5, hfig, hdf⟩ := h4
        subst hfig
        exact ⟨rfl, rfl⟩

/-- C5 witness: a concrete call with `xlog = true`, `ylog = false` produces a
log-typed x-axis with a suffixed title and a plain y-axis. -/
theorem C5_log_axes_witness :
    (make_scatter_plot dfS "x_val" "y_val" none true false none none 2 none).map
        (fun p => (p.1.layout.xaxis, p.1.layout.yaxis))
      = Except.ok (some (Axis.mk (some "X Val (log scale)") (some "log") false false),
          some (Axis.mk (some "Y Val") none false false)) := by
  rcases hh : make_scatter_plot dfS "x_val" "y_val" none true false none none 2 none
    with e | p
  · have hOk : (make_scatter_plot dfS "x_val" "y_val" none true false none none 2
        none).isOk = true := by decide
    rw [hh] at hOk
    simp [Except.isOk, Except.toBool] at hOk
  · have h' : make_scatter_plot dfS "x_val" "y_val" none true false none none 2 none
        = .ok (p.1, p.2) := by rwa [Prod.mk.eta]
    have hc := C5_log_axes dfS "x_val" "y_val" none true false none none 2 none
      p.1 p.2 h'
    simp only [Except.map]
    rw [hc.1, hc.2]
    exact congrArg Except.ok (by decide)

theorem mapME_ok_forall2 {α β : Type} {f : α → Except String β} :
    ∀ {l : List α} {ys : List β}, mapME f l = .ok ys →
      List.Forall₂ (fun a y => f a = .ok y) l ys := by
  intro l
  induction l with
  | nil => intro ys h; cases h; exact List.Forall₂.nil
  | cons a l ih =>
    intro ys h
    simp only [mapME, bindE_ok, pureE_ok] at h
    obtain ⟨b, hb, bs, hbs, hys⟩ := h
    subst hys
    exact List.Forall₂.cons hb (ih hbs)

/-! ## Claim C3: trace count and content of `make_hist` -/

/-- C3: whenever `make_hist` returns a figure, its trace list is exactly
segmented by the category: with `category = None` it is one histogram trace
holding every value of column `x`; with a category it holds one histogram
trace per distinct value of the category column (no duplicates, and every
category value is represented), in the grouping order of the keys, each trace
named by its key and holding exactly the `x` values of that key's rows. -/
theorem C3_hist_traces (df : DF) (x c : String) :
    (∀ fig df', make_hist df x none = .ok (fig, df') →
      ∃ xs, df.getCol x = .ok xs ∧ fig.data = [mkHist xs none]) ∧
    (∀ fig df', make_hist df x (some c) = .ok (fig, df') →
      ∃ ci, df.colIdx c = .ok ci ∧
        (groupKeys (df.rows.map (fun r => r.getD ci defVal))).Nodup ∧
        (∀ v, v ∈ groupKeys (df.rows.map (fun r => r.getD ci defVal)) ↔
          v ∈ df.rows.map (fun r => r.getD ci defVal)) ∧
        fig.data.length
          = (groupKeys (df.rows.map (fun r => r.getD ci defVal))).length ∧
        List.Forall₂ (fun k t => ∃ gx,
            (DF.mk df.header (df.rows.filter (fun r => r.getD ci defVal = k))).getCol x
              = .ok gx ∧ t = mkHist gx (some k))
          (groupKeys (df.rows.map (fun r => r.getD ci defVal))) fig.data) := by
  constructor
  · intro fig df' h
    simp only [make_hist, bindE_ok, pureE_ok, Prod.mk.injEq] at h
    obtain ⟨dx, hdx, hfig, hdf⟩ := h
    subst hfig
    exact ⟨dx, hdx, rfl⟩
  · intro fig df' h
    simp only [make_hist, bindE_ok, pureE_ok, Prod.mk.injEq] at h
    obtain ⟨gs, hgs, data, hdata, hfig, hdf⟩ := h
    simp only [DF.groupby, bindE_ok, pureE_ok] at hgs
    obtain ⟨ci, hci, hgs2⟩ := hgs
    subst hgs2
    subst hfig
    have hperm := List.perm_insertionSort ValLE
      (df.rows.map (fun r => r.getD ci defVal)).dedup
    have hfa := mapME_ok_forall2 hdata
    rw [List.forall₂_map_left_iff] at hfa
    refine ⟨ci, hci, ?_, ?_, ?_, ?_⟩
    · exact hperm.nodup_iff.mpr (List.nodup_dedup _)
    · intro v
      exact hperm.mem_iff.trans (List.mem_dedup)
    · exact (hfa.length_eq).symm
    · refine hfa.imp ?_
      intro k t hkt
      simp only [bindE_ok, pureE_ok] at hkt
      obtain ⟨gx, hgx, ht⟩ := hkt
      exact ⟨gx, hgx, ht.symm⟩

/-- C3 witness: on the sample frame, the ungrouped call yields one histogram
of all three values, and grouping by the two-valued category column yields
two traces. -/
theorem C3_hist_traces_witness :
    (make_hist dfH "v" none).map (fun p => p.1.data)
        = Except.ok [mkHist [.num 1, .num 2, .num 3] none] ∧
    (make_hist dfH "v" (some "cat")).map (fun p => p.1.data.length)
        = Except.ok 2 := by
  constructor
  · rcases hh : make_hist dfH "v" none with e | p
    · have hOk : (make_hist dfH "v" none).isOk = true := by decide
      rw [hh] at hOk
      simp [Except.isOk, Except.toBool] at hOk
    · have h' : make_hist dfH "v" none = .ok (p.1, p.2) := by rwa [Prod.mk.eta]
      obtain ⟨xs, hxs, hdata⟩ := (C3_hist_traces dfH "v" "cat").1 p.1 p.2 h'
      have hxs0 : dfH.getCol "v" = .ok [.num 1, .num 2, .num 3] := rfl
      rw [hxs0] at hxs
      have := Except.ok.inj hxs
      subst this
      simp only [Except.map]
      rw [hdata]
  · rcases hh : make_hist dfH "v" (some "cat") with e | p
    · have hOk : (make_hist dfH "v" (some "cat")).isOk = true := by decide
      rw [hh] at hOk
      simp [Except.isOk, Except.toBool] at hOk
    · have h' : make_hist dfH "v" (some "cat") = .ok (p.1, p.2) := by rwa [Prod.mk.eta]
      obtain ⟨ci, hci, hnd, hmem, hlen, hfa⟩ :=
        (C3_hist_traces dfH "v" "cat").2 p.1 p.2 h'
      have hci0 : dfH.colIdx "cat" = .ok 0 := rfl
      rw [hci0] at hci
      have := Except.ok.inj hci
      subst this
      simp only [Except.map]
      rw [hlen]
      exact congrArg Except.ok (by decide)

/-! ## Claim C4: title strings of `make_hist` -/

/-- C4 (amended): whenever `make_hist` returns a figure, the x-axis title is
the column name with underscores replaced by spaces and title-cased, the
y-axis title is "Count", and the layout title is "X Distribution by
Category" when the category argument is truthy (given and non-empty) and
"X Distribution" otherwise — in particular also when the category is the
empty string, where the claim as stated expected the "by" form. -/
theorem C4_hist_titles (df : DF) (x : String) (category : Option String)
    (fig : Figure) (df' : DF) (h : make_hist df x category = .ok (fig, df')) :
    fig.layout.title = some (if strTruthy category then
        colTitle x ++ " Distribution by " ++ colTitle (category.getD "")
      else colTitle x ++ " Distribution") ∧
    fig.layout.xaxis = some (mkAxis (colTitle x)) ∧
    fig.layout.yaxis = some (mkAxis "Count") := by
  unfold make_hist at h
  split at h
  · simp only [bindE_ok, pureE_ok, Prod.mk.injEq] at h
    obtain ⟨gs, h1, data, h2, hfig, hdf⟩ := h
    subst hfig
    exact ⟨rfl, rfl, rfl⟩
  · simp only [bindE_ok, pureE_ok, Prod.mk.injEq] at h
    obtain ⟨dx, h1, hfig, hdf⟩ := h
    subst hfig
    exact ⟨rfl, rfl, rfl⟩

/-- C4 witness: a concrete grouped call carries the "Distribution by" title
with both names transformed. -/
theorem C4_hist_titles_witness :
    (make_hist dfH "v" (some "cat")).map (fun p => p.1.layout.title)
      = Except.ok (some "V Distribution by Cat") := by
  rcases hh : make_hist dfH "v" (some "cat") with e | p
  · have hOk : (make_hist dfH "v" (some "cat")).isOk = true := by decide
    rw [hh] at hOk
    simp [Except.isOk, Except.toBool] at hOk
  · have h' : make_hist dfH "v" (some "cat") = .ok (p.1, p.2) := by rwa [Prod.mk.eta]
    have hc := (C4_hist_titles dfH "v" (some "cat") p.1 p.2 h').1
    simp only [Except.map]
    rw [hc]
    exact congrArg Except.ok (by decide)

/-- C4 counterexample: with the empty string given as category (and a column
named by the empty string present, so the call succeeds), the layout title is
"X Distribution", not the "X Distribution by " the claim prescribes for a
given category. -/
theorem C4_counterexample :
    (make_hist dfE "x" (some "")).map (fun p => p.1.layout.title)
        = Except.ok (some "X Distribution") ∧
      some "X Distribution"
        ≠ some (colTitle "x" ++ " Distribution by " ++ colTitle "") := by
  constructor
  · rfl
  · decide

/-! ## Frame effects: what each function does to the caller's DataFrame -/

theorem hist_frame {df : DF} {x : String} {category : Option String}
    {p : Figure × DF} (h : make_hist df x category = .ok p) : p.2 = df := by
  unfold make_hist at h
  split at h
  · simp only [bindE_ok, pureE_ok] at h
    obtain ⟨gs, h1, data, h2, hp⟩ := h
    rw [← hp]
  · simp only [bindE_ok, pureE_ok] at h
    obtain ⟨dx, h1, hp⟩ := h
    rw [← hp]

theorem cum_frame_cat {df : DF} {y : YSel} {c : String} {p : Figure × DF}
    (h : make_cum_plot df y (some c) = .ok p) : p.2 = df := by
  simp only [make_cum_plot, bindE_ok, pureE_ok] at h
  obtain ⟨gs, h1, data, h2, hp⟩ := h
  rw [← hp]

theorem cum_frame_none {df : DF} {y : YSel} {p : Figure × DF}
    (h : make_cum_plot df y none = .ok p) :
    DF.sortValues df "published_date" = .ok p.2 := by
  simp only [make_cum_plot, bindE_ok] at h
  obtain ⟨dfs, hsort, h2⟩ := h
  split at h2
  · simp only [bindE_ok, pureE_ok] at h2
    obtain ⟨a1, h3, a2, h4, a3, h5, a4, h6, a5, h7, a6, h8, a7, h9, a8, h10, hp⟩ := h2
    rw [← hp, hsort]
  · simp only [bindE_ok, pureE_ok] at h2
    obtain ⟨a1, h3, a2, h4, a3, h5, a4, h6, hp⟩ := h2
    rw [← hp, hsort]

theorem scatter_frame_cat {df : DF} {x y : String} {fits : Option (List String)}
    {xlog ylog : Bool} {c : String} {scale : Option String} {sizeref : ℚ}
    {anns : Option (List Ann)} {p : Figure × DF}
    (h : make_scatter_plot df x y fits xlog ylog (some c) scale sizeref anns
      = .ok p) : p.2 = df := by
  simp only [make_scatter_plot, bindE_ok, pureE_ok] at h
  obtain ⟨gs, h1, data, h2, hp⟩ := h
  rw [← hp]

theorem scatter_frame_scale {df : DF} {x y : String} {fits : Option (List String)}
    {xlog ylog : Bool} {sc : String} {sizeref : ℚ}
    {anns : Option (List Ann)} {p : Figure × DF}
    (h : make_scatter_plot df x y fits xlog ylog none (some sc) sizeref anns
      = .ok p) : p.2 = df := by
  simp only [make_scatter_plot, bindE_ok, pureE_ok] at h
  obtain ⟨a1, h1, a2, h2, a3, h3, a4, h4, hp⟩ := h
  rw [← hp]

theorem scatter_frame_sort {df : DF} {x y : String} {fits : Option (List String)}
    {xlog ylog : Bool} {sizeref : ℚ} {anns : Option (List Ann)} {p : Figure × DF}
    (h : make_scatter_plot df x y fits xlog ylog none none sizeref anns = .ok p) :
    DF.sortValues df x = .ok p.2 := by
  simp only [make_scatter_plot, bindE_ok] at h
  obtain ⟨dfs, hsort, a1, h3, a2, h4, a3, h5, h6⟩ := h
  split at h6
  · simp only [pureE_ok] at h6
    rw [← h6, hsort]
  · simp only [bindE_ok, pureE_ok] at h6
    obtain ⟨fitTs, h7, hp⟩ := h6
    rw [← hp, hsort]

theorem poly_frame {lib : StatsLib} {df : DF} {x y : String} {degree : Nat}
    {p : FitStats × Figure × DF} (h : make_poly_fits lib df x y degree = .ok p) :
    p.2.2 = df := by
  simp only [make_poly_fits, bindE_ok, pureE_ok] at h
  obtain ⟨st, h1, figdf, h2, hp⟩ := h
  rw [← hp]

theorem iplot_frame {lib : StatsLib} {df : DF} {x y bt : String} {time : Bool}
    {eq_pos : ℚ × ℚ} {p : Figure × DF}
    (h : make_iplot lib df x y bt time eq_pos = .ok p) : p.2 = df := by
  simp only [make_iplot, bindE_ok] at h
  obtain ⟨resp, h1, arts, h2, h⟩ := h
  split at h <;>
  · simp only [bindE_ok, pureE_ok] at h
    obtain ⟨pl, h3, hp⟩ := h
    rw [← hp]

theorem linreg_frame {lib : StatsLib} {df : DF} {x y : String} {i0 : Bool}
    {p : Figure × Summary × DF} (h : make_linear_regression lib df x y i0 = .ok p) :
    ∃ fv, DF.sortValues (df.setCol "fit_values" fv) x = .ok p.2.2 := by
  unfold make_linear_regression at h
  split at h
  · simp only [bindE_ok, pureE_ok] at h
    obtain ⟨b1, g1, h⟩ := h
    obtain ⟨b2, g2, h⟩ := h
    obtain ⟨b3, g3, h⟩ := h
    obtain ⟨b4, g4, h⟩ := h
    obtain ⟨st, hst, h⟩ := h
    obtain ⟨c1, k1, h⟩ := h
    obtain ⟨c2, k2, h⟩ := h
    obtain ⟨xm, k3, h⟩ := h
    obtain ⟨c3, k4, h⟩ := h
    obtain ⟨c4, k5, h⟩ := h
    obtain ⟨ym, k6, h⟩ := h
    obtain ⟨figdf, k7, hp⟩ := h
    have hsc := scatter_frame_sort k7
    refine ⟨(lib.olsFit b2 b4).fittedvalues.map Val.num, ?_⟩
    rw [← hp]
    rw [← hst] at hsc
    exact hsc
  · simp only [bindE_ok, pureE_ok] at h
    obtain ⟨b1, g1, h⟩ := h
    obtain ⟨b2, g2, h⟩ := h
    obtain ⟨b3, g3, h⟩ := h
    obtain ⟨b4, g4, h⟩ := h
    obtain ⟨st, hst, h⟩ := h
    obtain ⟨c1, k1, h⟩ := h
    obtain ⟨c2, k2, h⟩ := h
    obtain ⟨xm, k3, h⟩ := h
    obtain ⟨c3, k4, h⟩ := h
    obtain ⟨c4, k5, h⟩ := h
    obtain ⟨ym, k6, h⟩ := h
    obtain ⟨figdf, k7, hp⟩ := h
    have hsc := scatter_frame_sort k7
    refine ⟨(b2.map (fun t => t * (lib.linregress b2 b4).slope
      + (lib.linregress b2 b4).intercept)).map Val.num, ?_⟩
    rw [← hp]
    rw [← hst] at hsc
    exact hsc

/-! ## Claim C1 (amended): per-function frame effects -/

/-- C1 (amended): `make_hist`, `make_poly_fits` and `make_iplot` return the
caller's table unchanged, and so does `make_cum_plot` when grouping by a
category and `make_scatter_plot` when a category or a scale column is given;
but `make_cum_plot` with `category = None` hands back the caller's table
sorted in place by `published_date`, `make_scatter_plot` with neither
`category` nor `scale` hands it back sorted in place by `x`, and
`make_linear_regression` writes a `fit_values` column into the caller's
table and then sorts it in place by `x` through its nested
`make_scatter_plot` call. -/
theorem C1_frame_effects (lib : StatsLib) (df : DF) (x y bt c : String)
    (ysel : YSel) (scale category : Option String)
    (fits : Option (List String)) (xlog ylog i0 time : Bool) (sizeref : ℚ)
    (anns : Option (List Ann)) (degree : Nat) (eq_pos : ℚ × ℚ) :
    (∀ p, make_hist df x category = .ok p → p.2 = df) ∧
    (∀ p, make_iplot lib df x y bt time eq_pos = .ok p → p.2 = df) ∧
    (∀ p, make_poly_fits lib df x y degree = .ok p → p.2.2 = df) ∧
    (∀ p, make_cum_plot df ysel (some c) = .ok p → p.2 = df) ∧
    (∀ p, make_cum_plot df ysel none = .ok p →
      DF.sortValues df "published_date" = .ok p.2) ∧
    (∀ p, make_scatter_plot df x y fits xlog ylog (some c) scale sizeref anns
      = .ok p → p.2 = df) ∧
    (∀ p sc, make_scatter_plot df x y fits xlog ylog none (some sc) sizeref anns
      = .ok p → p.2 = df) ∧
    (∀ p, make_scatter_plot df x y fits xlog ylog none none sizeref anns
      = .ok p → DF.sortValues df x = .ok p.2) ∧
    (∀ p, make_linear_regression lib df x y i0 = .ok p →
      ∃ fv, DF.sortValues (df.setCol "fit_values" fv) x = .ok p.2.2) :=
  ⟨fun _ h => hist_frame h, fun _ h => iplot_frame h, fun _ h => poly_frame h,
   fun _ h => cum_frame_cat h, fun _ h => cum_frame_none h,
   fun _ h => scatter_frame_cat h, fun _ _ h => scatter_frame_scale h,
   fun _ h => scatter_frame_sort h, fun _ h => linreg_frame h⟩

theorem sortValues_header {df df' : DF} {c : String}
    (h : DF.sortValues df c = .ok df') : df'.header = df.header := by
  simp only [DF.sortValues, bindE_ok, pureE_ok] at h
  obtain ⟨i, hi, hdf⟩ := h
  rw [← hdf]

/-- C1 witness: concrete calls showing each conjunct in action — `make_hist`
hands the table back unchanged, `make_cum_plot` hands it back reordered by
published date, and `make_linear_regression` hands it back with a new
`fit_values` column. -/
theorem C1_frame_effects_witness :
    (make_hist dfH "v" none).map Prod.snd = Except.ok dfH ∧
    (make_cum_plot dfCum (.single "views") none).map Prod.snd
      = Except.ok (DF.mk ["published_date", "title", "views"]
          [[.num 1, .str "a", .num 20], [.num 2, .str "b", .num 10]]) ∧
    (make_linear_regression lib0 dfS "x_val" "y_val" false).map
        (fun p => p.2.2.header)
      = Except.ok ["x_val", "y_val", "title", "fit_values"] := by
  refine ⟨?_, ?_, ?_⟩
  · rcases hh : make_hist dfH "v" none with e | p
    · have hOk : (make_hist dfH "v" none).isOk = true := by decide
      rw [hh] at hOk
      simp [Except.isOk, Except.toBool] at hOk
    · have hp := (C1_frame_effects lib0 dfH "v" "v" "t" "c" (.single "v") none none
        none false false false false 2 none 0 (0, 0)).1 p hh
      simp only [Except.map]
      rw [hp]
  · rcases hh : make_cum_plot dfCum (.single "views") none with e | p
    · have hOk : (make_cum_plot dfCum (.single "views") none).isOk = true := by decide
      rw [hh] at hOk
      simp [Except.isOk, Except.toBool] at hOk
    · have hp := (C1_frame_effects lib0 dfCum "v" "v" "t" "c" (.single "views") none
        none none false false false false 2 none 0 (0, 0)).2.2.2.2.1 p hh
      have hev : DF.sortValues dfCum "published_date"
          = .ok (DF.mk ["published_date", "title", "views"]
              [[.num 1, .str "a", .num 20], [.num 2, .str "b", .num 10]]) := rfl
      rw [hev] at hp
      simp only [Except.map]
      rw [← Except.ok.inj hp]
  · rcases hh : make_linear_regression lib0 dfS "x_val" "y_val" false with e | p
    · have hOk : (make_linear_regression lib0 dfS "x_val" "y_val" false).isOk = true := by
        decide
      rw [hh] at hOk
      simp [Except.isOk, Except.toBool] at hOk
    · obtain ⟨fv, hfv⟩ := (C1_frame_effects lib0 dfS "x_val" "y_val" "t" "c"
        (.single "v") none none none false false false false 2 none 0 (0, 0)).2.2.2.2.2.2.2.2
        p hh
      have hhd := sortValues_header hfv
      have hset : (dfS.setCol "fit_values" fv).header
          = ["x_val", "y_val", "title", "fit_values"] := by
        simp [DF.setCol, dfS, List.indexOf?, List.findIdx?]
      simp only [Except.map]
      rw [hhd, hset]

/-- C1 counterexample: a successful `make_cum_plot` call (category None)
after which the caller's table rows are in a different order than before,
refuting "after any call the caller's input table has the same rows, row
order, and columns": the in-place sort hits the caller's table itself, not a
copy. -/
theorem C1_counterexample :
    (make_cum_plot dfCum (.single "views") none).map Prod.snd
        = Except.ok (DF.mk ["published_date", "title", "views"]
            [[.num 1, .str "a", .num 20], [.num 2, .str "b", .num 10]]) ∧
      DF.mk ["published_date", "title", "views"]
          [[.num 1, .str "a", .num 20], [.num 2, .str "b", .num 10]] ≠ dfCum := by
  constructor
  · rfl
  · decide

/-! ## Claim C10: `make_poly_fits` operates on a copy -/

/-- C10: for every library, input table and degree, a successful
`make_poly_fits` call returns the caller's table unchanged: the fit columns
and the nested in-place sort only touch the `df.copy()` made on entry. -/
theorem C10_poly_fits_frame (lib : StatsLib) (df : DF) (x y : String)
    (degree : Nat) (stats : FitStats) (fig : Figure) (df' : DF)
    (h : make_poly_fits lib df x y degree = .ok (stats, fig, df')) : df' = df :=
  poly_frame h

/-- C10 witness: a concrete `make_poly_fits` run returning the input table
untouched. -/
theorem C10_poly_fits_frame_witness :
    (make_poly_fits lib0 dfS "x_val" "y_val" 2).map (fun p => p.2.2)
      = Except.ok dfS := by
  rcases hh : make_poly_fits lib0 dfS "x_val" "y_val" 2 with e | p
  · have hOk : (make_poly_fits lib0 dfS "x_val" "y_val" 2).isOk = true := by decide
    rw [hh] at hOk
    simp [Except.isOk, Except.toBool] at hOk
  · obtain ⟨stats, fig, df'⟩ := p
    have hp := C10_poly_fits_frame lib0 dfS "x_val" "y_val" 2 stats fig df' hh
    simp only [Except.map]
    rw [hp]

/-! ## Claim C2: the `len(y) == 2` confusion of `make_cum_plot` -/

/-- C2 (code bug record): with the single two-character column name "ab"
(category None), `make_cum_plot` takes the `len(y) == 2` branch meant for a
two-element list — Python `len` of the string is 2 — and builds two traces
whose y-values are the prefix sums of the single-character columns "a" and
"b"; the prefix sums of the selected column "ab", which the claim (and the
function's docstring) prescribe as the single trace, appear in no trace. -/
theorem C2_len2_divergence :
    (make_cum_plot dfAB (.single "ab") none).map
        (fun p => p.1.data.map (fun t => t.y))
      = Except.ok [[Val.num 1, Val.num 3], [Val.num 10, Val.num 30]] ∧
    (cumsum [100, 200]).map Val.num = [Val.num 100, Val.num 300] ∧
    [Val.num 100, Val.num 300] ∉ [[Val.num 1, Val.num 3], [Val.num 10, Val.num 30]] := by
  refine ⟨by decide, by decide, by decide⟩

theorem bindE_error {α β : Type} {x : Except String α} {f : α → Except String β}
    {e : String} (h : x = .error e) : (x >>= f) = .error e := by
  subst h; rfl

theorem bind_ok_step {α β : Type} {x : Except String α} {a : α}
    (h : x = .ok a) (f : α → Except String β) : (x >>= f) = f a := by
  subst h; rfl

theorem isOk_false_bind {α β : Type} {x : Except String α}
    {f : α → Except String β} (h : x.isOk = false) : (x >>= f).isOk = false := by
  cases x
  · rfl
  · simp [Except.isOk, Except.toBool] at h

theorem colIdx_error {df : DF} {c : String} (h : c ∉ df.header) :
    df.colIdx c = .error ("KeyError: " ++ c) := by
  unfold DF.colIdx
  rw [List.indexOf?_eq_none_iff.mpr]
  intro x hx hbeq
  exact h (eq_of_beq hbeq ▸ hx)

theorem getCol_error {df : DF} {c : String} (h : c ∉ df.header) :
    df.getCol c = .error ("KeyError: " ++ c) := by
  unfold DF.getCol
  rw [bindE_error (colIdx_error h)]

theorem groupby_error {df : DF} {c : String} (h : c ∉ df.header) :
    df.groupby c = .error ("KeyError: " ++ c) := by
  unfold DF.groupby
  rw [bindE_error (colIdx_error h)]

theorem toNums_error {vs : List Val} {s : String} (h : Val.str s ∈ vs) :
    ∃ e, toNums vs = .error e := by
  induction vs with
  | nil => cases h
  | cons v vs ih =>
    cases v with
    | str t => exact ⟨"TypeError: non-numeric data", rfl⟩
    | num q =>
      rcases List.mem_cons.mp h with hv | hv
      · cases hv
      · obtain ⟨e, he⟩ := ih hv
        refine ⟨e, ?_⟩
        simp only [toNums]
        rw [bindE_error he]

theorem okE_bind {α β : Type} {a : α} {f : α → Except String β} :
    (Except.ok a : Except String α) >>= f = f a := rfl

theorem errE_bind {α β : Type} {e : String} {f : α → Except String β} :
    (Except.error e : Except String α) >>= f = .error e := rfl

/-! ## Claim C8: failures propagate uncaught -/

/-- C8: no recovery path exists — when an underlying table lookup or numeric
conversion fails, the calling function propagates the exception and returns
no figure: `make_hist` raises the `KeyError` of its missing plot or category
column unchanged, and `make_linear_regression` ends in an uncaught exception
whenever its x or y column is missing (either intercept mode) or its x data
is non-numeric. -/
theorem C8_error_propagation (lib : StatsLib) (df : DF) (x y c : String)
    (i0 : Bool) (vs : List Val) (s : String) :
    (x ∉ df.header → make_hist df x none = .error ("KeyError: " ++ x)) ∧
    (c ∉ df.header → make_hist df x (some c) = .error ("KeyError: " ++ c)) ∧
    (x ∉ df.header ∨ y ∉ df.header →
      ∃ e, make_linear_regression lib df x y i0 = .error e) ∧
    (df.getCol x = .ok vs → Val.str s ∈ vs →
      ∃ e, make_linear_regression lib df x y false = .error e) := by
  refine ⟨?_, ?_, ?_, ?_⟩
  · intro hx
    unfold make_hist
    rw [bindE_error (getCol_error hx)]
  · intro hc
    unfold make_hist
    exact bindE_error (groupby_error hc)
  · intro hxy
    unfold make_linear_regression
    cases i0
    · simp only [Bool.false_eq_true, if_false]
      cases hgx : df.getCol x with
      | error e => exact ⟨e, rfl⟩
      | ok dx =>
        have hx : x ∈ df.header := by
          by_contra hx
          rw [getCol_error hx] at hgx
          cases hgx
        have hy : y ∉ df.header := by
          rcases hxy with h | h
          · exact absurd hx h
          · exact h
        simp only [okE_bind]
        cases htn : toNums dx with
        | error e => exact ⟨e, rfl⟩
        | ok xs =>
          simp only [okE_bind]
          exact ⟨_, bindE_error (getCol_error hy)⟩
    · simp only [if_true]
      cases hgy : df.getCol y with
      | error e => exact ⟨e, rfl⟩
      | ok dy =>
        have hyin : y ∈ df.header := by
          by_contra hyy
          rw [getCol_error hyy] at hgy
          cases hgy
        have hx : x ∉ df.header := by
          rcases hxy with h | h
          · exact h
          · exact absurd hyin h
        simp only [okE_bind]
        cases htn : toNums dy with
        | error e => exact ⟨e, rfl⟩
        | ok ys =>
          simp only [okE_bind]
          exact ⟨_, bindE_error (getCol_error hx)⟩
  · intro hgx hs
    unfold make_linear_regression
    simp only [Bool.false_eq_true, if_false]
    obtain ⟨e, he⟩ := toNums_error hs
    rw [bind_ok_step hgx]
    exact ⟨e, bindE_error he⟩

/-- C8 witness: concrete missing-column and type-mismatch calls, each ending
in an error rather than a figure. -/
theorem C8_error_propagation_witness :
    make_hist dfH "zzz" none = .error ("KeyError: " ++ "zzz") ∧
    make_hist dfH "v" (some "zzz") = .error ("KeyError: " ++ "zzz") ∧
    (make_linear_regression lib0 dfH "zzz" "v" true).isOk = false ∧
    (make_linear_regression lib0 dfH "cat" "v" false).isOk = false := by
  refine ⟨?_, ?_, ?_, ?_⟩
  · exact (C8_error_propagation lib0 dfH "zzz" "v" "c" true [] "").1 (by decide)
  · exact (C8_error_propagation lib0 dfH "v" "v" "zzz" true [] "").2.1 (by decide)
  · obtain ⟨e, he⟩ := (C8_error_propagation lib0 dfH "zzz" "v" "c" true [] "").2.2.1
      (Or.inl (by decide))
    rw [he]; rfl
  · obtain ⟨e, he⟩ := (C8_error_propagation lib0 dfH "cat" "v" "c" false
      [.str "a", .str "b", .str "a"] "a").2.2.2 rfl (by decide)
    rw [he]; rfl

/-! ## Claim C9: `make_iplot` with responses and `time=True` always raises -/

theorem respBranch_time_isOk_false (lib : StatsLib) (resp arts : DF)
    (x y bt : String) (eq_pos : ℚ × ℚ) :
    (iplotRespBranch lib resp arts x y bt true eq_pos).isOk = false := by
  unfold iplotRespBranch
  cases h1 : arts.getCol x with
  | error e => rfl
  | ok ax =>
    simp only [okE_bind]
    cases h2 : arts.getCol y with
    | error e => rfl
    | ok ay =>
      simp only [okE_bind]
      cases h3 : arts.getCol "title" with
      | error e => rfl
      | ok at1 =>
        simp only [okE_bind]
        cases h4 : resp.getCol x with
        | error e => rfl
        | ok rx =>
          simp only [okE_bind]
          cases h5 : resp.getCol y with
          | error e => rfl
          | ok ry => simp only [okE_bind]; rfl

/-- C9: for every input table whose response column contains a "response"
row, calling `make_iplot` with `time` set to true returns no figure: the
local `annotations` is assigned only in the `not time` branch, so the layout
construction reads an unassigned local and the call ends in an uncaught
exception (UnboundLocalError, or an earlier lookup failure on degenerate
frames). -/
theorem C9_iplot_time_unbound (lib : StatsLib) (df : DF) (x y bt : String)
    (eq_pos : ℚ × ℚ) (resp : DF)
    (hresp : df.filterEq "response" (.str "response") = .ok resp)
    (hne : resp.rows ≠ []) :
    (make_iplot lib df x y bt true eq_pos).isOk = false := by
  unfold make_iplot
  rw [bind_ok_step hresp]
  cases harts : df.filterEq "response" (.str "article") with
  | error e => rfl
  | ok arts =>
    simp only [okE_bind]
    have hcond : (!resp.rows.isEmpty) = true := by
      cases hr : resp.rows with
      | nil => exact absurd hr hne
      | cons r rs => rfl
    rw [if_pos hcond]
    exact isOk_false_bind (respBranch_time_isOk_false lib resp arts x y bt eq_pos)

/-- C9 witness: a concrete frame with one response row makes the
`time=True` call fail. -/
theorem C9_iplot_time_unbound_witness :
    (make_iplot lib0 dfR "x" "y" "t" true (3 / 4, 1 / 4)).isOk = false := by
  have hresp : dfR.filterEq "response" (.str "response")
      = .ok ⟨["response", "x", "y", "title"],
          [[.str "response", .num 1, .num 2, .str "t"]]⟩ := rfl
  exact C9_iplot_time_unbound lib0 dfR "x" "y" "t" (3 / 4, 1 / 4) _ hresp (by decide)

/-! ## Column machinery: reading and writing columns, sorting frames -/

theorem indexOf?_spec {l : List String} {a : String} {i : Nat}
    (h : l.indexOf? a = some i) : ∃ hi : i < l.length, l.get ⟨i, hi⟩ = a := by
  obtain ⟨hi, hp, _⟩ := List.findIdx?_eq_some_iff_getElem.mp h
  exact ⟨hi, by simpa using hp⟩

theorem indexOf?_ne {l : List String} {a b : String} {i j : Nat}
    (ha : l.indexOf? a = some i) (hb : l.indexOf? b = some j) (hab : a ≠ b) :
    i ≠ j := by
  intro hij
  obtain ⟨hi, hia⟩ := indexOf?_spec ha
  obtain ⟨hj, hjb⟩ := indexOf?_spec hb
  subst hij
  exact hab (hia ▸ hjb ▸ rfl)

theorem indexOf?_append_left' {l l' : List String} {a : String} {i : Nat}
    (h : l.indexOf? a = some i) : (l ++ l').indexOf? a = some i := by
  unfold List.indexOf? at *
  rw [List.findIdx?_append, h]
  rfl

theorem indexOf?_append_new {l : List String} {a : String}
    (h : l.indexOf? a = none) : (l ++ [a]).indexOf? a = some l.length := by
  unfold List.indexOf? at *
  rw [List.findIdx?_append, h]
  simp

theorem indexOf?_lt_length {l : List String} {a : String} {i : Nat}
    (h : l.indexOf? a = some i) : i < l.length :=
  (indexOf?_spec h).1

theorem toNums_ok_shape : ∀ {vs : List Val} {xs : List ℚ},
    toNums vs = .ok xs → vs = xs.map Val.num := by
  intro vs
  induction vs with
  | nil => intro xs h; cases h; rfl
  | cons v vs ih =>
    intro xs h
    cases v with
    | str s => cases h
    | num q =>
      simp only [toNums, bindE_ok, pureE_ok] at h
      obtain ⟨qs, hqs, hx⟩ := h
      rw [← hx, List.map_cons, ← ih hqs]

theorem getCol_ok_iff {df : DF} {a : String} {vv : List Val} :
    df.getCol a = .ok vv ↔ ∃ i, df.header.indexOf? a = some i ∧
      vv = df.rows.map (fun r => r.getD i defVal) := by
  unfold DF.getCol DF.colIdx
  cases h : df.header.indexOf? a with
  | none => simp [bindE_ok]
  | some i => simp [okE_bind, pureE_ok, eq_comm]

theorem setCol_rows_length {df : DF} {c : String} {vs : List Val}
    (hlen : vs.length = df.rows.length) :
    (df.setCol c vs).rows.length = df.rows.length := by
  unfold DF.setCol
  cases df.header.indexOf? c <;> simp [hlen]

theorem setCol_WF {df : DF} {c : String} {vs : List Val} (hwf : df.WF) :
    (df.setCol c vs).WF := by
  unfold DF.setCol
  cases hidx : df.header.indexOf? c with
  | some i =>
    intro r hr
    rw [List.mem_iff_getElem?] at hr
    obtain ⟨k, hk⟩ := hr
    rw [List.getElem?_zipWith_eq_some] at hk
    obtain ⟨r0, v0, hr0, hv0, hrv⟩ := hk
    have hr0m : r0 ∈ df.rows := by
      rw [List.mem_iff_getElem?]; exact ⟨k, hr0⟩
    simp only [← hrv, List.length_set]
    exact hwf r0 hr0m
  | none =>
    intro r hr
    rw [List.mem_iff_getElem?] at hr
    obtain ⟨k, hk⟩ := hr
    rw [List.getElem?_zipWith_eq_some] at hk
    obtain ⟨r0, v0, hr0, hv0, hrv⟩ := hk
    have hr0m : r0 ∈ df.rows := by
      rw [List.mem_iff_getElem?]; exact ⟨k, hr0⟩
    simp only [← hrv, List.length_append, List.length_singleton, List.length_append]
    simp [hwf r0 hr0m]

theorem getCol_setCol_self {df : DF} {c : String} {vs : List Val} (hwf : df.WF)
    (hlen : vs.length = df.rows.length) : (df.setCol c vs).getCol c = .ok vs := by
  rw [getCol_ok_iff]
  unfold DF.setCol
  cases hidx : df.header.indexOf? c with
  | some ci =>
    refine ⟨ci, hidx, ?_⟩
    have hci : ci < df.header.length := indexOf?_lt_length hidx
    apply List.ext_getElem?
    intro k
    rw [List.getElem?_map]
    cases hz : (List.zipWith (fun r v => r.set ci v) df.rows vs)[k]? with
    | none =>
      rw [List.getElem?_eq_none_iff] at hz
      have hzl : vs.length ≤ k := by simpa [List.length_zipWith, hlen] using hz
      simp [List.getElem?_eq_none hzl]
    | some r =>
      rw [List.getElem?_zipWith_eq_some] at hz
      obtain ⟨r0, v0, hr0, hv0, hrv⟩ := hz
      have hr0m : r0 ∈ df.rows := by
        rw [List.mem_iff_getElem?]; exact ⟨k, hr0⟩
      have hcir : ci < r0.length := by rw [hwf r0 hr0m]; exact hci
      rw [hv0, ← hrv]
      simp [List.getD_eq_getElem?_getD, List.getElem?_set_self (by simpa using hcir)]
  | none =>
    refine ⟨df.header.length, indexOf?_append_new hidx, ?_⟩
    apply List.ext_getElem?
    intro k
    rw [List.getElem?_map]
    cases hz : (List.zipWith (fun r v => r ++ [v]) df.rows vs)[k]? with
    | none =>
      rw [List.getElem?_eq_none_iff] at hz
      have hzl : vs.length ≤ k := by simpa [List.length_zipWith, hlen] using hz
      simp [List.getElem?_eq_none hzl]
    | some r =>
      rw [List.getElem?_zipWith_eq_some] at hz
      obtain ⟨r0, v0, hr0, hv0, hrv⟩ := hz
      have hr0m : r0 ∈ df.rows := by
        rw [List.mem_iff_getElem?]; exact ⟨k, hr0⟩
      rw [hv0, ← hrv]
      simp [List.getD_eq_getElem?_getD,
        List.getElem?_append_right (Nat.le_of_eq (hwf r0 hr0m)), hwf r0 hr0m]

theorem getCol_setCol_other {df : DF} {x c : String} {vs : List Val} {xi : Nat}
    (hwf : df.WF) (hne : x ≠ c) (hlen : vs.length = df.rows.length)
    (hx : df.header.indexOf? x = some xi) :
    (df.setCol c vs).getCol x = df.getCol x := by
  have hxv : df.getCol x = .ok (df.rows.map (fun r => r.getD xi defVal)) :=
    getCol_ok_iff.mpr ⟨xi, hx, rfl⟩
  rw [hxv, getCol_ok_iff]
  have hxi : xi < df.header.length := indexOf?_lt_length hx
  unfold DF.setCol
  cases hidx : df.header.indexOf? c with
  | some ci =>
    refine ⟨xi, hx, ?_⟩
    have hci : ci ≠ xi := indexOf?_ne hidx hx (Ne.symm hne)
    apply List.ext_getElem?
    intro k
    rw [List.getElem?_map, List.getElem?_map]
    cases hz : (List.zipWith (fun r v => r.set ci v) df.rows vs)[k]? with
    | none =>
      rw [List.getElem?_eq_none_iff] at hz
      have hzl : df.rows.length ≤ k := by
        simpa [List.length_zipWith, hlen] using hz
      simp [List.getElem?_eq_none hzl]
    | some r =>
      rw [List.getElem?_zipWith_eq_some] at hz
      obtain ⟨r0, v0, hr0, hv0, hrv⟩ := hz
      rw [hr0, ← hrv]
      simp [List.getD_eq_getElem?_getD, List.getElem?_set_ne hci]
  | none =>
    refine ⟨xi, indexOf?_append_left' hx, ?_⟩
    apply List.ext_getElem?
    intro k
    rw [List.getElem?_map, List.getElem?_map]
    cases hz : (List.zipWith (fun r v => r ++ [v]) df.rows vs)[k]? with
    | none =>
      rw [List.getElem?_eq_none_iff] at hz
      have hzl : df.rows.length ≤ k := by
        simpa [List.length_zipWith, hlen] using hz
      simp [List.getElem?_eq_none hzl]
    | some r =>
      rw [List.getElem?_zipWith_eq_some] at hz
      obtain ⟨r0, v0, hr0, hv0, hrv⟩ := hz
      have hr0m : r0 ∈ df.rows := by
        rw [List.mem_iff_getElem?]; exact ⟨k, hr0⟩
      have hxir : xi < r0.length := by rw [hwf r0 hr0m]; exact hxi
      rw [hr0, ← hrv]
      simp [List.getD_eq_getElem?_getD, List.getElem?_append_left hxir]

theorem sortValues_rows_perm {df df2 : DF} {s : String}
    (h : DF.sortValues df s = .ok df2) :
    df2.header = df.header ∧ df2.rows.Perm df.rows := by
  simp only [DF.sortValues, bindE_ok, pureE_ok] at h
  obtain ⟨i, hi, hdf⟩ := h
  rw [← hdf]
  exact ⟨rfl, List.perm_insertionSort _ _⟩

theorem sort_cols_rel {df df2 : DF} {s x c : String} {g : Val → Val}
    {xv cv : List Val} (hsort : DF.sortValues df s = .ok df2)
    (hx : df.getCol x = .ok xv) (hc : df.getCol c = .ok cv)
    (hrel : cv = xv.map g) :
    ∃ xv2, df2.getCol x = .ok xv2 ∧ df2.getCol c = .ok (xv2.map g) := by
  obtain ⟨hhd, hperm⟩ := sortValues_rows_perm hsort
  obtain ⟨xi, hxi, hxv⟩ := getCol_ok_iff.mp hx
  obtain ⟨ci, hci, hcv⟩ := getCol_ok_iff.mp hc
  have hpt : ∀ r ∈ df.rows, r.getD ci defVal = g (r.getD xi defVal) := by
    rw [← List.map_inj_left]
    rw [← hcv, hrel, hxv, List.map_map]
    rfl
  have hpt2 : ∀ r ∈ df2.rows, r.getD ci defVal = g (r.getD xi defVal) := by
    intro r hr
    exact hpt r (hperm.mem_iff.mp hr)
  refine ⟨df2.rows.map (fun r => r.getD xi defVal), ?_, ?_⟩
  · exact getCol_ok_iff.mpr ⟨xi, hhd ▸ hxi, rfl⟩
  · refine getCol_ok_iff.mpr ⟨ci, hhd ▸ hci, ?_⟩
    rw [List.map_map]
    rw [List.map_inj_left]
    intro r hr
    exact (hpt2 r hr).symm

theorem mapME_singleton_ok {α β : Type} {f : α → Except String β} {a : α}
    {ys : List β} (h : mapME f [a] = .ok ys) : ∃ b, f a = .ok b ∧ ys = [b] := by
  simp only [mapME, bindE_ok, pureE_ok] at h
  obtain ⟨b, hb, l, hl, hys⟩ := h
  cases Except.ok.inj hl
  exact ⟨b, hb, hys.symm⟩

/-! ## Claim C7: `make_linear_regression` -/

/-- C7: under the standard OLS semantics (fitted values are the exog data
times the fitted coefficient), `make_linear_regression` fits y against x by
the standard routines: with `intercept_0` the single OLS coefficient is the
slope, the `fit_values` column of the caller's (sorted) table equals slope
times the x column, and the figure is the observations trace followed by the
fitted-values trace with an annotation rendering the fitted equation with
the slope to two decimal places; without `intercept_0` the
`scipy.stats.linregress` slope and intercept are used, the fit column equals
slope times x plus intercept, the summary is the pvalue/rvalue/slope/
intercept table, and the annotation also renders the intercept. -/
theorem C7_linear_regression (lib : StatsLib) (df : DF) (x y : String)
    (hwf : df.WF) (hx : x ≠ "fit_values")
    (hols : ∀ ys xs, (lib.olsFit ys xs).fittedvalues
      = xs.map (fun t => t * (lib.olsFit ys xs).params)) :
    (∀ fig summ df', make_linear_regression lib df x y true = .ok (fig, summ, df') →
      ∃ xv ys xs xv2 dy dt a,
        df.getCol y >>= toNums = .ok ys ∧
        df.getCol x = .ok xv ∧ toNums xv = .ok xs ∧
        summ = Summary.ols (lib.olsFit ys xs).summaryText ∧
        df'.getCol x = .ok xv2 ∧
        df'.getCol "fit_values"
          = .ok (xv2.map (fun v => Val.num (v.toQ * (lib.olsFit ys xs).params))) ∧
        fig.data = [mkScatter xv2 dy "markers" (some (.str "observations")) (some dt),
          mkScatter xv2 (xv2.map (fun v => Val.num (v.toQ * (lib.olsFit ys xs).params)))
            "lines+markers" (some (.str "fit_values")) none] ∧
        fig.layout.annotations = some [a] ∧
        a.text = "$" ++ y ++ " = " ++ format2f (lib.olsFit ys xs).params
          ++ " * " ++ pyRepl x ++ "$") ∧
    (∀ fig summ df', make_linear_regression lib df x y false = .ok (fig, summ, df') →
      ∃ xv xs ys xv2 dy dt a,
        df.getCol x = .ok xv ∧ toNums xv = .ok xs ∧
        df.getCol y >>= toNums = .ok ys ∧
        summ = Summary.table ["pvalue", "rvalue", "slope", "intercept"]
          [(lib.linregress xs ys).pvalue, (lib.linregress xs ys).rvalue,
           (lib.linregress xs ys).slope, (lib.linregress xs ys).intercept] ∧
        df'.getCol x = .ok xv2 ∧
        df'.getCol "fit_values" = .ok (xv2.map (fun v =>
          Val.num (v.toQ * (lib.linregress xs ys).slope + (lib.linregress xs ys).intercept))) ∧
        fig.data = [mkScatter xv2 dy "markers" (some (.str "observations")) (some dt),
          mkScatter xv2 (xv2.map (fun v =>
              Val.num (v.toQ * (lib.linregress xs ys).slope + (lib.linregress xs ys).intercept)))
            "lines+markers" (some (.str "fit_values")) none] ∧
        fig.layout.annotations = some [a] ∧
        a.text = "$" ++ y ++ " = " ++ format2f (lib.linregress xs ys).slope
          ++ " * " ++ pyRepl x ++ " + " ++ format2f (lib.linregress xs ys).intercept ++ "$") := by
  constructor
  · intro fig summ df' h
    unfold make_linear_regression at h
    simp only [if_true] at h
    simp only [bindE_ok, pureE_ok] at h
    obtain ⟨b1, g1, h⟩ := h
    obtain ⟨ys, g2, h⟩ := h
    obtain ⟨b3, g3, h⟩ := h
    obtain ⟨xs, g4, h⟩ := h
    obtain ⟨st, hst, h⟩ := h
    obtain ⟨c1, k1, h⟩ := h
    obtain ⟨c2, k2, h⟩ := h
    obtain ⟨xm, k3, h⟩ := h
    obtain ⟨c3, k4, h⟩ := h
    obtain ⟨c4, k5, h⟩ := h
    obtain ⟨ym, k6, h⟩ := h
    obtain ⟨figdf, k7, hp⟩ := h
    obtain ⟨hfig, hsumm, hdf'⟩ : figdf.1 = fig ∧ st.2.1 = summ ∧ figdf.2 = df' := by
      simpa [Prod.ext_iff] using hp
    -- facts about the x column of df
    obtain ⟨xidx, hxidx, hxvshape⟩ := getCol_ok_iff.mp g3
    have hxv : df.getCol x = .ok b3 := g3
    have hxs_shape : b3 = xs.map Val.num := toNums_ok_shape g4
    -- the written column
    have hvslen : ((lib.olsFit ys xs).fittedvalues.map Val.num).length = df.rows.length := by
      rw [List.length_map, hols, List.length_map]
      have : b3.length = df.rows.length := by rw [hxvshape, List.length_map]
      rw [hxs_shape, List.length_map] at this
      exact this
    have hset_self : (df.setCol "fit_values" ((lib.olsFit ys xs).fittedvalues.map Val.num)).getCol "fit_values"
        = .ok ((lib.olsFit ys xs).fittedvalues.map Val.num) :=
      getCol_setCol_self hwf hvslen
    have hset_other : (df.setCol "fit_values" ((lib.olsFit ys xs).fittedvalues.map Val.num)).getCol x
        = df.getCol x :=
      getCol_setCol_other hwf hx hvslen hxidx
    -- the relation between the two columns on the frame handed to the scatter call
    have hrel : (lib.olsFit ys xs).fittedvalues.map Val.num
        = b3.map (fun v => Val.num (v.toQ * (lib.olsFit ys xs).params)) := by
      rw [hols, hxs_shape, List.map_map, List.map_map]
      rfl
    -- drill into the scatter call on st.1
    have hst1 : st.1 = df.setCol "fit_values" ((lib.olsFit ys xs).fittedvalues.map Val.num) := by
      rw [← hst]
    rw [hst1] at k7
    simp only [make_scatter_plot, bindE_ok] at k7
    obtain ⟨dfs, hsort, dx, hdx, dy, hdy, dt, hdt, k8⟩ := k7
    obtain ⟨fitTs, hmap, hfigdf⟩ := k8
    rw [pureE_ok] at hfigdf
    obtain ⟨tfit, hft, hfitTs⟩ := mapME_singleton_ok hmap
    simp only [bindE_ok, pureE_ok] at hft
    obtain ⟨fy, hfy, htfit⟩ := hft
    -- transfer the column relation through the in-place sort
    obtain ⟨xv2, hxv2, hfv2⟩ := sort_cols_rel hsort (hset_other.trans hxv) hset_self hrel
    have hdxeq : dx = xv2 := by
      rw [hxv2] at hdx
      exact (Except.ok.inj hdx).symm
    have hfyeq : fy = xv2.map (fun v => Val.num (v.toQ * (lib.olsFit ys xs).params)) := by
      rw [hfv2] at hfy
      exact (Except.ok.inj hfy).symm
    refine ⟨b3, ys, xs, xv2, dy, dt, ⟨3 / 4 * xm, 9 / 10 * ym, st.2.2⟩, ?_, hxv, g4, ?_, ?_, ?_, ?_, ?_, ?_⟩
    · rw [bind_ok_step g1]; exact g2
    · rw [← hsumm, ← hst]
    · rw [← hdf']
      rw [← hfigdf]
      exact hxv2
    · rw [← hdf', ← hfigdf]
      exact hfv2
    · rw [← hfig, ← hfigdf]
      simp only [hfitTs, ← htfit, hdxeq, hfyeq]
    · rw [← hfig, ← hfigdf]
      rfl
    · rw [← hst]
  · intro fig summ df' h
    unfold make_linear_regression at h
    simp only [Bool.false_eq_true, if_false] at h
    simp only [bindE_ok, pureE_ok] at h
    obtain ⟨b1, g1, h⟩ := h
    obtain ⟨xs, g2, h⟩ := h
    obtain ⟨b3, g3, h⟩ := h
    obtain ⟨ys, g4, h⟩ := h
    obtain ⟨st, hst, h⟩ := h
    obtain ⟨c1, k1, h⟩ := h
    obtain ⟨c2, k2, h⟩ := h
    obtain ⟨xm, k3, h⟩ := h
    obtain ⟨c3, k4, h⟩ := h
    obtain ⟨c4, k5, h⟩ := h
    obtain ⟨ym, k6, h⟩ := h
    obtain ⟨figdf, k7, hp⟩ := h
    obtain ⟨hfig, hsumm, hdf'⟩ : figdf.1 = fig ∧ st.2.1 = summ ∧ figdf.2 = df' := by
      simpa [Prod.ext_iff] using hp
    obtain ⟨xidx, hxidx, hxvshape⟩ := getCol_ok_iff.mp g1
    have hxs_shape : b1 = xs.map Val.num := toNums_ok_shape g2
    have hvslen : ((xs.map (fun t => t * (lib.linregress xs ys).slope
        + (lib.linregress xs ys).intercept)).map Val.num).length = df.rows.length := by
      rw [List.length_map, List.length_map]
      have hb1 : b1.length = df.rows.length := by rw [hxvshape, List.length_map]
      rw [hxs_shape, List.length_map] at hb1
      exact hb1
    have hset_self := @getCol_setCol_self df "fit_values" _ hwf hvslen
    have hset_other := getCol_setCol_other hwf hx hvslen hxidx
    have hrel : (xs.map (fun t => t * (lib.linregress xs ys).slope
          + (lib.linregress xs ys).intercept)).map Val.num
        = b1.map (fun v => Val.num (v.toQ * (lib.linregress xs ys).slope
          + (lib.linregress xs ys).intercept)) := by
      rw [hxs_shape, List.map_map, List.map_map]
      rfl
    have hst1 : st.1 = df.setCol "fit_values" ((xs.map (fun t =>
        t * (lib.linregress xs ys).slope + (lib.linregress xs ys).intercept)).map Val.num) := by
      rw [← hst]
    rw [hst1] at k7
    simp only [make_scatter_plot, bindE_ok] at k7
    obtain ⟨dfs, hsort, dx, hdx, dy, hdy, dt, hdt, k8⟩ := k7
    obtain ⟨fitTs, hmap, hfigdf⟩ := k8
    rw [pureE_ok] at hfigdf
    obtain ⟨tfit, hft, hfitTs⟩ := mapME_singleton_ok hmap
    simp only [bindE_ok, pureE_ok] at hft
    obtain ⟨fy, hfy, htfit⟩ := hft
    obtain ⟨xv2, hxv2, hfv2⟩ := sort_cols_rel hsort (hset_other.trans g1) hset_self hrel
    have hdxeq : dx = xv2 := by
      rw [hxv2] at hdx
      exact (Except.ok.inj hdx).symm
    have hfyeq : fy = xv2.map (fun v => Val.num (v.toQ * (lib.linregress xs ys).slope
        + (lib.linregress xs ys).intercept)) := by
      rw [hfv2] at hfy
      exact (Except.ok.inj hfy).symm
    refine ⟨b1, xs, ys, xv2, dy, dt, ⟨3 / 4 * xm, 9 / 10 * ym, st.2.2⟩, g1, g2, ?_, ?_, ?_, ?_, ?_, ?_, ?_⟩
    · rw [bind_ok_step g3]; exact g4
    · rw [← hsumm, ← hst]
    · rw [← hdf', ← hfigdf]
      exact hxv2
    · rw [← hdf', ← hfigdf]
      exact hfv2
    · rw [← hfig, ← hfigdf]
      simp only [hfitTs, ← htfit, hdxeq, hfyeq]
    · rw [← hfig, ← hfigdf]
      rfl
    · rw [← hst]

/-- C7 witness: a concrete fitted-intercept regression whose annotation text
renders both coefficients to two decimal places. -/
theorem C7_linear_regression_witness :
    (make_linear_regression lib0 dfS "x_val" "y_val" false).map
        (fun p => p.1.layout.annotations.map (fun l => l.map Ann.text))
      = Except.ok (some ["$y_val = 0.00 * x val + 0.00$"]) := by
  rcases hh : make_linear_regression lib0 dfS "x_val" "y_val" false
    with e | ⟨fig, summ, df'⟩
  · have hOk : (make_linear_regression lib0 dfS "x_val" "y_val" false).isOk = true := by
      decide
    rw [hh] at hOk
    simp [Except.isOk, Except.toBool] at hOk
  · obtain ⟨xv, xs, ys, xv2, dy, dt, a, h1, h2, h3, h4, h5, h6, h7, h8, h9⟩ :=
      (C7_linear_regression lib0 dfS "x_val" "y_val" (by unfold DF.WF; decide)
        (by decide) (fun ys xs => rfl)).2 fig summ df' hh
    have hxv0 : dfS.getCol "x_val" = .ok [Val.num 1, Val.num 3] := rfl
    rw [hxv0] at h1
    cases Except.ok.inj h1
    have hxs0 : toNums [Val.num 1, Val.num 3] = .ok [1, 3] := by decide
    rw [hxs0] at h2
    cases Except.ok.inj h2
    have hys0 : dfS.getCol "y_val" >>= toNums = .ok [2, 4] := by decide
    rw [hys0] at h3
    cases Except.ok.inj h3
    simp only [Except.map]
    rw [h8]
    simp only [Option.map_some', List.map_cons, List.map_nil, h9]
    exact congrArg Except.ok (congrArg some (by decide))

theorem natDigitsRev_eq_digits : ∀ (fuel n : Nat), n ≤ fuel →
    natDigitsRev fuel n = Nat.digits 10 n := by
  intro fuel
  induction fuel with
  | zero =>
    intro n hn
    cases Nat.le_zero.mp hn
    rw [Nat.digits_zero]
    rfl
  | succ fuel ih =>
    intro n hn
    by_cases h0 : n = 0
    · subst h0
      rw [Nat.digits_zero]
      simp [natDigitsRev]
    · rw [natDigitsRev, if_neg h0]
      have hdiv : n / 10 ≤ fuel :=
        Nat.lt_succ_iff.mp (Nat.lt_of_lt_of_le
          (Nat.div_lt_self (Nat.pos_of_ne_zero h0) (by norm_num)) hn)
      rw [ih (n / 10) hdiv,
        Nat.digits_def' (by norm_num : (1:ℕ) < 10) (Nat.pos_of_ne_zero h0)]

theorem digitChar_inj_lt {a b : Nat} (ha : a < 10) (hb : b < 10)
    (h : Nat.digitChar a = Nat.digitChar b) : a = b := by
  have hfin : ∀ u v : Fin 10, Nat.digitChar u = Nat.digitChar v → (u : Nat) = v := by
    decide
  exact hfin ⟨a, ha⟩ ⟨b, hb⟩ h

theorem map_digitChar_inj : ∀ {l1 l2 : List Nat}, (∀ d ∈ l1, d < 10) →
    (∀ d ∈ l2, d < 10) → l1.map Nat.digitChar = l2.map Nat.digitChar → l1 = l2 := by
  intro l1
  induction l1 with
  | nil =>
    intro l2 _ _ h
    cases l2 with
    | nil => rfl
    | cons b l2 => simp at h
  | cons a l1 ih =>
    intro l2 h1 h2 h
    cases l2 with
    | nil => simp at h
    | cons b l2 =>
      simp only [List.map_cons, List.cons.injEq] at h
      have hab : a = b := digitChar_inj_lt (h1 a (by simp)) (h2 b (by simp)) h.1
      rw [hab, ih (fun d hd => h1 d (by simp [hd])) (fun d hd => h2 d (by simp [hd])) h.2]

theorem natDecimalChars_eq (n : Nat) :
    natDecimalChars n = ((Nat.digits 10 n).map Nat.digitChar).reverse := by
  unfold natDecimalChars
  rw [natDigitsRev_eq_digits n n (Nat.le_refl n)]

theorem natDecimal_inj : Function.Injective natDecimal := by
  intro m n h
  unfold natDecimal at h
  have hchars : ∀ k, String.mk (natDecimalChars k)
      = String.mk (((Nat.digits 10 k).map Nat.digitChar).reverse) := by
    intro k; rw [natDecimalChars_eq]
  have digits_of_chars_eq : ∀ {u v : Nat},
      String.mk (natDecimalChars u) = String.mk (natDecimalChars v) → u = v := by
    intro u v huv
    rw [hchars, hchars] at huv
    have hdata := congrArg String.data huv
    simp only at hdata
    have hrev := List.reverse_injective hdata
    have hd := map_digitChar_inj
      (fun d hd => Nat.digits_lt_base (by norm_num) hd)
      (fun d hd => Nat.digits_lt_base (by norm_num) hd) hrev
    exact Nat.digits.injective 10 hd
  have zero_ne : ∀ k, k ≠ 0 → "0" ≠ String.mk (natDecimalChars k) := by
    intro k hk hzk
    rw [hchars] at hzk
    have hdata := congrArg String.data hzk
    simp only at hdata
    have hrev : List.map Nat.digitChar (Nat.digits 10 k) = ['0'] := by
      have := congrArg List.reverse hdata
      simpa using this.symm
    have hdig : Nat.digits 10 k = [0] := by
      have h0 : ([0] : List Nat).map Nat.digitChar = ['0'] := by decide
      exact map_digitChar_inj
        (fun d hd => Nat.digits_lt_base (by norm_num) hd)
        (by intro d hd; simp at hd; simp [hd]) (hrev.trans h0.symm)
    have := Nat.ofDigits_digits 10 k
    rw [hdig] at this
    simp [Nat.ofDigits] at this
    exact hk this.symm
  by_cases hm : m = 0 <;> by_cases hn : n = 0
  · rw [hm, hn]
  · rw [if_pos hm, if_neg hn] at h
    exact absurd h (zero_ne n hn)
  · rw [if_neg hm, if_pos hn] at h
    exact absurd h.symm (zero_ne m hm)
  · rw [if_neg hm, if_neg hn] at h
    exact digits_of_chars_eq h

theorem fitName_inj : Function.Injective fitName := by
  intro a b h
  unfold fitName at h
  have hdata := congrArg String.data h
  simp only [String.data_append] at hdata
  have hcancel := List.append_cancel_left hdata
  apply natDecimal_inj
  exact String.ext hcancel

theorem polyFitLoop_preserves (lib : StatsLib) (x y : String) :
    ∀ (is : List Nat) (dfc : DF) (out : DF × List String × List ℚ × List (List ℚ))
      (c : String) (vv : List Val),
      dfc.WF → dfc.getCol c = .ok vv → c ∉ is.map fitName →
      polyFitLoop lib x y is dfc = .ok out →
      out.1.getCol c = .ok vv ∧ out.1.WF := by
  intro is
  induction is with
  | nil =>
    intro dfc out c vv hwf hc hnotin h
    cases h
    exact ⟨hc, hwf⟩
  | cons i is ih =>
    intro dfc out c vv hwf hc hnotin h
    simp only [polyFitLoop, bindE_ok, pureE_ok] at h
    obtain ⟨a1, h1, xs, h2, a2, h3, ys, h4, h⟩ := h
    cases hhd : (lib.polyfit xs ys i).2.head? with
    | none =>
      rw [hhd] at h
      simp only [bindE_ok] at h
      obtain ⟨a, ha, _⟩ := h
      cases ha
    | some r0 =>
    rw [hhd] at h
    simp only [bindE_ok, pureE_ok] at h
    obtain ⟨r, hr, rest, h6, h7⟩ := h
    obtain ⟨xi, hxi, ha1⟩ := getCol_ok_iff.mp h1
    have ha1len : a1.length = dfc.rows.length := by rw [ha1, List.length_map]
    have hxslen : xs.length = a1.length := by
      rw [toNums_ok_shape h2, List.length_map]
    have hlen : ((xs.map (polyval (lib.polyfit xs ys i).1)).map Val.num).length
        = dfc.rows.length := by
      rw [List.length_map, List.length_map, hxslen, ha1len]
    obtain ⟨ci, hci, hvv⟩ := getCol_ok_iff.mp hc
    have hcne : c ≠ fitName i := by
      intro hh
      exact hnotin (by simp [hh])
    have hc1 : (dfc.setCol (fitName i)
        ((xs.map (polyval (lib.polyfit xs ys i).1)).map Val.num)).getCol c = .ok vv := by
      rw [getCol_setCol_other hwf hcne hlen hci]
      exact hc
    have hrest := ih _ rest c vv (setCol_WF hwf) hc1
      (fun hmem => hnotin (by simp [hmem])) h6
    rw [← h7]
    exact hrest

theorem polyFitLoop_spec (lib : StatsLib) (x y : String) :
    ∀ (is : List Nat) (dfc : DF) (out : DF × List String × List ℚ × List (List ℚ))
      (xv yv : List Val) (xs ysq : List ℚ),
      dfc.WF → dfc.getCol x = .ok xv → toNums xv = .ok xs →
      dfc.getCol y = .ok yv → toNums yv = .ok ysq →
      (∀ i ∈ is, x ≠ fitName i ∧ y ≠ fitName i) →
      (is.map fitName).Nodup →
      polyFitLoop lib x y is dfc = .ok out →
      out.2.1 = is.map fitName ∧
      out.2.2.2 = is.map (fun i => (lib.polyfit xs ysq i).1) ∧
      List.Forall₂ (fun i r => ∃ r0, (lib.polyfit xs ysq i).2.head? = some r0 ∧
        r = lib.sqrt r0) is out.2.2.1 ∧
      out.1.WF ∧
      out.1.getCol x = .ok xv ∧ out.1.getCol y = .ok yv ∧
      (∀ i ∈ is, out.1.getCol (fitName i)
        = .ok ((xs.map (polyval (lib.polyfit xs ysq i).1)).map Val.num)) := by
  intro is
  induction is with
  | nil =>
    intro dfc out xv yv xs ysq hwf hxv hxs hyv hys hfr hnd h
    cases h
    exact ⟨rfl, rfl, List.Forall₂.nil, hwf, hxv, hyv, by intro i hi; cases hi⟩
  | cons i is ih =>
    intro dfc out xv yv xs ysq hwf hxv hxs hyv hys hfr hnd h
    simp only [polyFitLoop, bindE_ok, pureE_ok] at h
    obtain ⟨a1, h1, xs', h2, a2, h3, ys', h4, h⟩ := h
    -- the column reads are the given ones
    have ha1 : a1 = xv := Except.ok.inj (h1.symm.trans hxv)
    subst a1
    have hxs' : xs' = xs := Except.ok.inj (h2.symm.trans hxs)
    subst xs'
    have ha2 : a2 = yv := Except.ok.inj (h3.symm.trans hyv)
    subst a2
    have hys' : ys' = ysq := Except.ok.inj (h4.symm.trans hys)
    subst ys'
    cases hhd : (lib.polyfit xs ysq i).2.head? with
    | none =>
      rw [hhd] at h
      simp only [bindE_ok] at h
      obtain ⟨a, ha, _⟩ := h
      cases ha
    | some r0 =>
    rw [hhd] at h
    simp only [bindE_ok, pureE_ok] at h
    obtain ⟨r, hr, rest, h6, h7⟩ := h
    -- facts for the grown frame
    obtain ⟨xi, hxi, hxvshape⟩ := getCol_ok_iff.mp hxv
    obtain ⟨yi, hyi, hyvshape⟩ := getCol_ok_iff.mp hyv
    have hxvlen : xv.length = dfc.rows.length := by rw [hxvshape, List.length_map]
    have hxslen : xs.length = xv.length := by
      rw [toNums_ok_shape hxs, List.length_map]
    have hlen : ((xs.map (polyval (lib.polyfit xs ysq i).1)).map Val.num).length
        = dfc.rows.length := by
      rw [List.length_map, List.length_map, hxslen, hxvlen]
    have hwf1 := @setCol_WF dfc (fitName i)
      ((xs.map (polyval (lib.polyfit xs ysq i).1)).map Val.num) hwf
    have hx1 : (dfc.setCol (fitName i)
        ((xs.map (polyval (lib.polyfit xs ysq i).1)).map Val.num)).getCol x = .ok xv := by
      rw [getCol_setCol_other hwf (hfr i (by simp)).1 hlen hxi]
      exact hxv
    have hy1 : (dfc.setCol (fitName i)
        ((xs.map (polyval (lib.polyfit xs ysq i).1)).map Val.num)).getCol y = .ok yv := by
      rw [getCol_setCol_other hwf (hfr i (by simp)).2 hlen hyi]
      exact hyv
    have hself : (dfc.setCol (fitName i)
        ((xs.map (polyval (lib.polyfit xs ysq i).1)).map Val.num)).getCol (fitName i)
        = .ok ((xs.map (polyval (lib.polyfit xs ysq i).1)).map Val.num) :=
      getCol_setCol_self hwf hlen
    have hnd' : (is.map fitName).Nodup := (List.nodup_cons.mp (by simpa using hnd)).2
    have hfr' : ∀ j ∈ is, x ≠ fitName j ∧ y ≠ fitName j :=
      fun j hj => hfr j (by simp [hj])
    have hrec := ih _ rest xv yv xs ysq hwf1 hx1 hxs hy1 hys hfr' hnd' h6
    have hnotin : fitName i ∉ is.map fitName :=
      (List.nodup_cons.mp (by simpa using hnd)).1
    have hpres := polyFitLoop_preserves lib x y is _ rest (fitName i) _ hwf1 hself hnotin h6
    refine ⟨?_, ?_, ?_, ?_, ?_, ?_, ?_⟩
    · rw [← h7]; simp [hrec.1]
    · rw [← h7]; simp [hrec.2.1]
    · rw [← h7]
      simp only []
      exact List.Forall₂.cons ⟨r0, hhd, hr.symm⟩ hrec.2.2.1
    · rw [← h7]; exact hrec.2.2.2.1
    · rw [← h7]; exact hrec.2.2.2.2.1
    · rw [← h7]; exact hrec.2.2.2.2.2.1
    · rw [← h7]
      intro j hj
      rcases List.mem_cons.mp hj with hj | hj
      · subst hj
        exact hpres.1
      · exact hrec.2.2.2.2.2.2 j hj

theorem forall2_eq_map_of {α β : Type} {R : α → β → Prop} {G : α → β} :
    ∀ {l : List α} {l2 : List β}, List.Forall₂ R l l2 →
      (∀ a ∈ l, ∀ b, R a b → b = G a) → l2 = l.map G := by
  intro l l2 h
  induction h with
  | nil => intro _; rfl
  | cons hR hF ih =>
    intro hmem
    simp only [List.map_cons, List.cons.injEq]
    constructor
    · exact hmem _ (List.mem_cons_self _ _) _ hR
    · exact ih (fun a ha b hb => hmem a (List.mem_cons_of_mem _ ha) b hb)

/-- C6: for degrees `1..degree`, `make_poly_fits` fits column `y` against
column `x` with the library polynomial least-squares routine; the returned
statistics list the names `"fit degree = i"` in order (one per degree), the
fit coefficients, and the square root of each fit's first residual; the
figure holds the observation trace followed by exactly `degree` fit traces
whose values are the fitted polynomials evaluated at the x data. -/
theorem C6_poly_fits (lib : StatsLib) (df : DF) (x y : String) (degree : Nat)
    (stats : FitStats) (fig : Figure) (dfOut : DF)
    (xv yv : List Val) (xs ysq : List ℚ)
    (hwf : df.WF)
    (hxv : df.getCol x = .ok xv) (hxs : toNums xv = .ok xs)
    (hyv : df.getCol y = .ok yv) (hys : toNums yv = .ok ysq)
    (hfr : ∀ i ∈ List.range' 1 degree, x ≠ fitName i ∧ y ≠ fitName i)
    (h : make_poly_fits lib df x y degree = .ok (stats, fig, dfOut)) :
    stats.fit = (List.range' 1 degree).map fitName ∧
    stats.fit.length = degree ∧
    stats.params = (List.range' 1 degree).map (fun i => (lib.polyfit xs ysq i).1) ∧
    List.Forall₂ (fun i r => ∃ r0, (lib.polyfit xs ysq i).2.head? = some r0 ∧
      r = lib.sqrt r0) (List.range' 1 degree) stats.rmse ∧
    fig.data.length = degree + 1 ∧
    ∃ dx dy dt,
      fig.data = mkScatter dx dy "markers" (some (.str "observations")) (some dt) ::
        (List.range' 1 degree).map (fun i =>
          mkScatter dx (dx.map (fun v =>
            Val.num (polyval (lib.polyfit xs ysq i).1 v.toQ)))
            "lines+markers" (some (.str (fitName i))) none) := by
  simp only [make_poly_fits, bindE_ok] at h
  obtain ⟨st, hst, figdf, hfig, hp⟩ := h
  rw [pureE_ok] at hp
  obtain ⟨hstats, hfigeq, hdfo⟩ : (⟨st.2.1, st.2.2.1, st.2.2.2⟩ : FitStats) = stats
      ∧ figdf.1 = fig ∧ df = dfOut := by
    simpa [Prod.ext_iff] using hp
  have hnd : ((List.range' 1 degree).map fitName).Nodup :=
    List.Nodup.map fitName_inj (List.nodup_range' 1 degree)
  have hspec := polyFitLoop_spec lib x y (List.range' 1 degree) df st xv yv xs ysq
    hwf hxv hxs hyv hys hfr hnd hst
  obtain ⟨hfit, hparams, hrmse, hwf1, hx1, hy1, hcols⟩ := hspec
  simp only [make_scatter_plot, bindE_ok] at hfig
  obtain ⟨df2, hsort, dx, hdx, dy, hdy, dt, hdt, fitTs, hmap, hpure⟩ := hfig
  rw [pureE_ok] at hpure
  have hdfcol : ∀ i ∈ List.range' 1 degree, df2.getCol (fitName i)
      = .ok (dx.map (fun v => Val.num (polyval (lib.polyfit xs ysq i).1 v.toQ))) := by
    intro i hi
    have hrel : ((xs.map (polyval (lib.polyfit xs ysq i).1)).map Val.num)
        = xv.map (fun v => Val.num (polyval (lib.polyfit xs ysq i).1 v.toQ)) := by
      rw [toNums_ok_shape hxs, List.map_map, List.map_map]
      rfl
    obtain ⟨xv2, hxv2, hfv2⟩ := sort_cols_rel hsort hx1 (hcols i hi) hrel
    have hdxeq : dx = xv2 := by
      rw [hxv2] at hdx
      exact (Except.ok.inj hdx).symm
    rw [hdxeq]
    exact hfv2
  rw [hfit] at hmap
  have hF := mapME_ok_forall2 hmap
  rw [List.forall₂_map_left_iff] at hF
  have hfitTs : fitTs = (List.range' 1 degree).map (fun i =>
      mkScatter dx (dx.map (fun v =>
        Val.num (polyval (lib.polyfit xs ysq i).1 v.toQ)))
        "lines+markers" (some (.str (fitName i))) none) := by
    apply forall2_eq_map_of hF
    intro i hi t ht
    simp only [bindE_ok, pureE_ok] at ht
    obtain ⟨fy, hfy, ht⟩ := ht
    rw [hdfcol i hi] at hfy
    cases Except.ok.inj hfy
    exact ht.symm
  refine ⟨?_, ?_, ?_, ?_, ?_, dx, dy, dt, ?_⟩
  · rw [← hstats]
    exact hfit
  · rw [← hstats]
    show st.2.1.length = degree
    rw [hfit, List.length_map, List.length_range']
  · rw [← hstats]
    exact hparams
  · rw [← hstats]
    exact hrmse
  · rw [← hfigeq, ← hpure]
    show (List.cons _ fitTs).length = degree + 1
    rw [List.length_cons, hfitTs, List.length_map, List.length_range']
  · rw [← hfigeq, ← hpure]
    show List.cons _ fitTs = _
    rw [hfitTs]

theorem C6_poly_fits_witness :
    ∃ stats fig dfOut,
      make_poly_fits lib0 dfS "x_val" "y_val" 2 = .ok (stats, fig, dfOut) ∧
      stats.fit = ["fit degree = 1", "fit degree = 2"] ∧
      stats.fit.length = 2 ∧
      stats.params = [[0, 0], [0, 0, 0]] ∧
      fig.data.length = 3 := by
  rcases hh : make_poly_fits lib0 dfS "x_val" "y_val" 2 with e | p
  · have hOk : (make_poly_fits lib0 dfS "x_val" "y_val" 2).isOk = true := by decide
    rw [hh] at hOk
    simp [Except.isOk, Except.toBool] at hOk
  · obtain ⟨stats, fig, dfOut⟩ := p
    have h := C6_poly_fits lib0 dfS "x_val" "y_val" 2 stats fig dfOut
      [.num 1, .num 3] [.num 2, .num 4] [1, 3] [2, 4]
      (by unfold DF.WF; decide) (by decide) (by decide) (by decide) (by decide)
      (by decide) hh
    refine ⟨stats, fig, dfOut, rfl, ?_, h.2.1, ?_, h.2.2.2.2.1⟩
    · rw [h.1]
      decide
    · rw [h.2.2.1]
      decide
